import Mathlib

/-!
Verification of the portfolio backtesting engine (`portfolio/backtesting.py`,
class `SimpleBacktestEngine`) against its natural-language specification.

Modelling conventions:
* All floating-point arithmetic is modelled over `ℚ` (exact rational
  arithmetic).  Division is ℚ-division (total, `x / 0 = 0`).
* A pandas `Series` of returns/prices indexed by dates is modelled as an
  association list `List (ℕ × ℚ)` with dates encoded as natural numbers
  `y*10000 + m*100 + d` (an order-preserving encoding of calendar dates).
* pandas alignment (`pd.concat(..., axis=1)` over date indices) is modelled by
  forming the sorted union of the date indices and looking each date up in
  every series, a missing date giving the column's `NaN`; `fillna(0)` /
  `sum(axis=1)` (which skips NaN) turn those into `0`.
* The `float(...)`-is-finite guards of the Python code are identities in the
  ℚ model (every ℚ value is finite) and are noted where they occur.
-/

/-- A date-indexed series of rationals (a pandas `Series`): list of
`(encoded date, value)` pairs, dates ascending. -/
abbrev RSeries := List (ℕ × ℚ)

/-- Value of a series at a date; a missing date contributes `0`
(the effect of `fillna(0)` / NaN-skipping sums in the engine). -/
def lookup0 (s : RSeries) (d : ℕ) : ℚ :=
  ((s.find? (fun p => p.1 == d)).map (·.2)).getD 0

/-- Whether a series has an observation at date `d`. -/
def hasDate (s : RSeries) (d : ℕ) : Bool :=
  s.any (fun p => p.1 == d)

/-- Insert a date into a sorted duplicate-free list of dates. -/
def insertSorted (d : ℕ) : List ℕ → List ℕ
  | [] => [d]
  | x :: xs =>
    if d < x then d :: x :: xs
    else if d = x then x :: xs
    else x :: insertSorted d xs

/-- Sorted union of the date indices of several series: the row index
produced by `pd.concat(..., axis=1)` / `pd.DataFrame(dict)`. -/
def unionDates (ss : List RSeries) : List ℕ :=
  ((ss.map (fun s => s.map (·.1))).flatten).foldr insertSorted []

/-- `pd.concat(series_list, axis=1).sum(axis=1)` over date-indexed series:
sum at every date of the union index, missing entries contributing `0`
(pandas `sum` skips NaN).  Used to combine weighted asset returns inside a
single portfolio (`_get_single_portfolio_returns`). -/
def sumSeries (ss : List RSeries) : RSeries :=
  (unionDates ss).map (fun d => (d, (ss.map (fun s => lookup0 s d)).sum))

/-- `price_series.pct_change().dropna()`: day-over-day fractional change,
the (NaN) first element dropped. -/
def pctChangeSeries (prices : RSeries) : RSeries :=
  List.zipWith (fun a b => (b.1, b.2 / a.2 - 1)) prices prices.tail

/-- `pct_change()` on a plain value list (dates handled separately). -/
def pctChangeVals (vals : List ℚ) : List ℚ :=
  List.zipWith (fun a b => b / a - 1) vals vals.tail

/-- Cumulative product of `(1 + r)` over a return list:
`(1 + returns).cumprod()`. -/
def cumprod1p : List ℚ → List ℚ :=
  go 1
where
  go (acc : ℚ) : List ℚ → List ℚ
    | [] => []
    | r :: rest => (acc * (1 + r)) :: go (acc * (1 + r)) rest

/-- Dot product of two equally long vectors. -/
def dotL (w r : List ℚ) : ℚ := (List.zipWith (· * ·) w r).sum

/-- Python/numpy `round` to an integer: round half to even. -/
def halfEvenZ (q : ℚ) : ℤ :=
  let f := q.floor
  let r := q - (f : ℚ)
  if r < 1/2 then f
  else if 1/2 < r then f + 1
  else if f % 2 = 0 then f else f + 1

/-- Python `round(x, k)`. -/
def rndTo (k : ℕ) (q : ℚ) : ℚ := ((halfEvenZ (q * 10 ^ k) : ℚ)) / 10 ^ k

/-- `round(x, 2)`. -/
def rnd2 : ℚ → ℚ := rndTo 2

/-- `round(x, 3)`. -/
def rnd3 : ℚ → ℚ := rndTo 3

/-! ### Calendar arithmetic (dates encoded as `y*10000 + m*100 + d`)

Models the pandas `Timestamp`/`DateOffset` arithmetic used by
`_get_rebalancing_dates` and `_get_rebalancing_events`. -/

/-- Gregorian leap year. -/
def isLeap (y : ℕ) : Bool := y % 4 == 0 && (y % 100 != 0 || y % 400 == 0)

/-- Number of days in a month. -/
def lastDom (y m : ℕ) : ℕ :=
  if m == 2 then (if isLeap y then 29 else 28)
  else if m == 4 || m == 6 || m == 9 || m == 11 then 30
  else 31

/-- Encode a calendar date. -/
def encodeD (y m d : ℕ) : ℕ := y * 10000 + m * 100 + d

/-- `date + pd.DateOffset(months=k)`: advance by `k` months clamping the day
to the target month's length (`DateOffset(years=1)` behaves like 12 months). -/
def addMonthsEnc (enc : ℕ) (k : ℕ) : ℕ :=
  let y := enc / 10000
  let m := (enc / 100) % 100
  let d := enc % 100
  let t := m - 1 + k
  let y2 := y + t / 12
  let m2 := t % 12 + 1
  encodeD y2 m2 (min d (lastDom y2 m2))

/-- Next calendar day. -/
def nextDayEnc (enc : ℕ) : ℕ :=
  let y := enc / 10000
  let m := (enc / 100) % 100
  let d := enc % 100
  if d < lastDom y m then encodeD y m (d + 1)
  else if m < 12 then encodeD y (m + 1) 1
  else encodeD (y + 1) 1 1

/-- `pd.date_range(start, end, freq='D')` (fuel-bounded loop; each step
advances the encoded date by at least 1, so `endD - cur + 2` fuel suffices). -/
def dailyRangeAux (endD : ℕ) : ℕ → ℕ → List ℕ
  | 0, _ => []
  | fuel + 1, cur => if cur ≤ endD then cur :: dailyRangeAux endD fuel (nextDayEnc cur) else []

/-- Daily calendar range between two encoded dates, inclusive. -/
def dailyRange (s e : ℕ) : List ℕ := dailyRangeAux e (e - s + 2) s

/-- Month step of a rebalancing frequency; `none` for an unrecognized
frequency (the `else: break` arm of `_get_rebalancing_dates`). -/
def freqMonths (freq : String) : Option ℕ :=
  if freq == "monthly" then some 1
  else if freq == "quarterly" then some 3
  else if freq == "semi_annually" then some 6
  else if freq == "annually" then some 12
  else none

/-- The `while current_date <= end_date` loop of `_get_rebalancing_dates`:
keep stepped dates that occur in the index; an unrecognized frequency breaks
after the first iteration.  Fuel-bounded: each step advances the date by at
least one month, so 12·(year span + 2) iterations are enough. -/
def rebalLoop (index : List ℕ) (endD : ℕ) (step : Option ℕ) : ℕ → ℕ → List ℕ
  | 0, _ => []
  | fuel + 1, cur =>
    if cur ≤ endD then
      (if index.contains cur then [cur] else []) ++
        (match step with
         | none => []
         | some m => rebalLoop index endD step fuel (addMonthsEnc cur m))
    else []

/-- `_get_rebalancing_dates(date_index)`: schedule of rebalance dates.
Empty for `never`; otherwise start at the first index date and step by the
policy period, keeping stepped dates that exist in the index. -/
def getRebalancingDates (freq : String) (index : List ℕ) : List ℕ :=
  if freq == "never" then []
  else
    match index with
    | [] => []
    | d0 :: _ =>
      let endD := index.getLastD 0
      rebalLoop index endD (freqMonths freq) (12 * (endD / 10000 - d0 / 10000 + 2)) d0

/-! ### Per-portfolio return calculation and the returns DataFrame -/

/-- One row of `AssetPortfolioMapping` joined with its `HistoricalPrice`
rows for the requested range: composition weight and the (date-ordered)
price series. -/
structure AssetData where
  weight : ℚ
  prices : RSeries
deriving DecidableEq

/-- `_get_single_portfolio_returns`: `none` models `Portfolio.DoesNotExist`
(empty series); otherwise each asset with a non-empty price series
contributes its `pct_change().dropna()` returns scaled by its composition
weight, the weighted series are aligned on the union of their dates and
summed (missing dates contributing zero), and a portfolio with no priced
assets yields an empty series. -/
def singlePortfolioReturns (assets : Option (List AssetData)) : RSeries :=
  match assets with
  | none => []
  | some l =>
    let rets := (l.filter (fun a => !a.prices.isEmpty)).map
      (fun a => (pctChangeSeries a.prices).map (fun q => (q.1, q.2 * a.weight)))
    if rets.isEmpty then [] else sumSeries rets

/-- One entry of the user's `portfolio_mix`: portfolio id and weight in
percent. -/
structure MixEntry where
  pid : ℕ
  weight : ℚ
deriving DecidableEq

/-- The returns DataFrame of `_get_individual_portfolio_returns`: a date
index (rows) and one return column per mix entry (keyed by portfolio id). -/
structure RetDF where
  dates : List ℕ
  cols : List (ℕ × List ℚ)
deriving DecidableEq

/-- `_get_individual_portfolio_returns`: build the per-portfolio returns
DataFrame with portfolio ids as columns over the union of all date indices,
`fillna(0)`. -/
def buildDF (seriesOf : ℕ → RSeries) (mix : List MixEntry) : RetDF :=
  let ds := unionDates (mix.map (fun e => seriesOf e.pid))
  ⟨ds, mix.map (fun e => (e.pid, ds.map (lookup0 (seriesOf e.pid))))⟩

/-- `DataFrame.empty`: no rows or no columns. -/
def dfEmpty (df : RetDF) : Bool := df.dates.isEmpty || df.cols.isEmpty

/-- Column of the DataFrame for a portfolio id (first matching column). -/
def colOf (df : RetDF) (p : ℕ) : List ℚ :=
  ((df.cols.find? (fun c => c.1 == p)).map (·.2)).getD []

/-- `portfolio_id in individual_returns.columns`. -/
def hasCol (df : RetDF) (p : ℕ) : Bool := df.cols.any (fun c => c.1 == p)

/-- `individual_returns[pid].iloc[i]`. -/
def cellAt (df : RetDF) (p : ℕ) (i : ℕ) : ℚ := (colOf df p).getD i 0

/-! ### The rebalancing simulator (`_calculate_rebalanced_returns`) -/

/-- The day's blended return under the current weights (a dict keyed by
portfolio id): `day_return += individual_returns[pid].iloc[i] * weight` for
every id that is a column of the DataFrame. -/
def dayReturnAt (df : RetDF) (w : List (ℕ × ℚ)) (i : ℕ) : ℚ :=
  (w.map (fun e => if hasCol df e.1 then cellAt df e.1 i * e.2 else 0)).sum

/-- The weight-drift update: every id that is a column gets
`weight * (1 + r_i) / (1 + day_return)`; other entries are untouched. -/
def driftStep (df : RetDF) (i : ℕ) (d : ℚ) (w : List (ℕ × ℚ)) : List (ℕ × ℚ) :=
  w.map (fun e => if hasCol df e.1 then (e.1, e.2 * (1 + cellAt df e.1 i) / (1 + d)) else e)

/-- State of the day-by-day loop of `_calculate_rebalanced_returns` after
processing row `i`: the current weight dict and the portfolio value.
Row 0 is skipped (`continue`), leaving the initial state
`(target_weights, 100000)`.  For `i ≥ 1`: reset the weights to target if the
date is a scheduled rebalance date, compute the day's blended return, update
the value multiplicatively, and drift the weights unless the day's return is
zero. -/
def simState (df : RetDF) (tw : List (ℕ × ℚ)) (rd : List ℕ) : ℕ → List (ℕ × ℚ) × ℚ
  | 0 => (tw, 100000)
  | i + 1 =>
    let s := simState df tw rd i
    let w1 := if rd.contains (df.dates.getD (i + 1) 0) then tw else s.1
    let d := dayReturnAt df w1 (i + 1)
    ((if d = 0 then w1 else driftStep df (i + 1) d w1), s.2 * (1 + d))

/-- `_calculate_rebalanced_returns`: run the value loop over all rows, then
`portfolio_values.pct_change().dropna()` — the blended return series, indexed
by every date after the first. -/
def calcRebalancedReturns (df : RetDF) (tw : List (ℕ × ℚ)) (rd : List ℕ) : RSeries :=
  let vals := (List.range df.dates.length).map (fun i => (simState df tw rd i).2)
  (df.dates.drop 1).zip (pctChangeVals vals)

/-- Pointwise sum of equally long columns
(`pd.concat(columns, axis=1).sum(axis=1)`). -/
def sumColumns (n : ℕ) (cs : List (List ℚ)) : List ℚ :=
  cs.foldr (fun c acc => List.zipWith (· + ·) c acc) (List.replicate n 0)

/-- `_apply_rebalancing_logic`: empty DataFrame gives an empty series; the
target weights are `weight / 100` per mix entry (a dict in mix order); policy
`never` sums the weight-scaled columns pointwise; any other policy runs the
rebalancing simulator with the scheduled rebalance dates. -/
def applyRebalancingLogic (freq : String) (mix : List MixEntry) (df : RetDF) : RSeries :=
  if dfEmpty df then []
  else
    let tw := mix.map (fun e => (e.pid, e.weight / 100))
    if freq == "never" then
      let wcols := (tw.filter (fun e => hasCol df e.1)).map
        (fun e => (colOf df e.1).map (fun r => r * e.2))
      if wcols.isEmpty then [] else df.dates.zip (sumColumns df.dates.length wcols)
    else calcRebalancedReturns df tw (getRebalancingDates freq df.dates)

/-! ### Comparison metrics (`_calculate_comparison_metrics`) -/

/-- Arithmetic mean of a list (`Series.mean()`); `0` for the empty list
(ℚ division by zero). -/
def meanL (l : List ℚ) : ℚ := l.sum / l.length

/-- `np.var` (population variance, `ddof = 0`). -/
def popVar (l : List ℚ) : ℚ :=
  ((l.map (fun x => (x - meanL l) ^ 2)).sum) / l.length

/-- `np.cov(xs, ys)[0, 1]` (sample covariance, `ddof = 1`). -/
def sampleCov (xs ys : List ℚ) : ℚ :=
  ((List.zipWith (fun x y => (x - meanL xs) * (y - meanL ys)) xs ys).sum) / (xs.length - 1 : ℕ)

/-- The rows of `pd.concat([p, b], axis=1).dropna()`: dates present in both
series (in ascending date order) with both values. -/
def alignedRows (p b : RSeries) : List (ℕ × ℚ × ℚ) :=
  ((unionDates [p, b]).filter (fun d => hasDate p d && hasDate b d)).map
    (fun d => (d, lookup0 p d, lookup0 b d))

/-- The all-zero comparison metrics returned on degenerate inputs. -/
def zeroComparison : List (String × ℚ) :=
  [("benchmark_return", 0), ("excess_return", 0), ("beta", 0), ("alpha", 0)]

/-- `_calculate_comparison_metrics`: zeros when either series is empty or the
date-aligned join has fewer than 2 rows; otherwise total benchmark/portfolio
returns `(∏ (1+r) - 1) * 100`, excess return their difference,
`beta = np.cov(p,b)[0,1] / np.var(b)` (zero when the variance is zero), and
`alpha = (port_annual - 3%) - beta * (bench_annual - 3%)` with
`annual = (1 + mean)^252 - 1`, reported as `alpha * 100`; the NaN/inf guards
of the source are identities over ℚ. -/
def calculateComparisonMetrics (p b : RSeries) : List (String × ℚ) :=
  if b.isEmpty || p.isEmpty then zeroComparison
  else
    let al := alignedRows p b
    if al.isEmpty || al.length < 2 then zeroComparison
    else
      let portR := al.map (fun r => r.2.1)
      let benchR := al.map (fun r => r.2.2)
      let btr := ((benchR.map (fun r => 1 + r)).prod - 1) * 100
      let ptr := ((portR.map (fun r => 1 + r)).prod - 1) * 100
      let excess := ptr - btr
      let variance := popVar benchR
      let beta := if variance ≠ 0 then sampleCov portR benchR / variance else 0
      let portAnnual := (1 + meanL portR) ^ 252 - 1
      let benchAnnual := (1 + meanL benchR) ^ 252 - 1
      let alpha := (portAnnual - 3/100) - beta * (benchAnnual - 3/100)
      [("benchmark_return", rnd2 btr), ("excess_return", rnd2 excess),
       ("beta", rnd3 beta), ("alpha", rnd2 (alpha * 100))]

/-! ### Time series builder (`_generate_time_series`) -/

/-- The chart data: ISO dates (kept encoded), portfolio values, benchmark
values. -/
structure TimeSeriesOut where
  dates : List ℕ
  portfolio_values : List ℚ
  benchmark_values : List ℚ
deriving DecidableEq

/-- `_generate_time_series`: empty blend gives three empty lists.  Otherwise
the blend's cumulative `(1+r)` products scaled by 100000; the benchmark is
date-aligned to the blend (inner join) and scaled the same way over the
joined dates, a flat `1` (per blend date) replacing it when the benchmark
series or the join is empty.  Values are rounded to 2 decimals; the
`fillna` / finiteness guards are identities over ℚ. -/
def generateTimeSeries (p b : RSeries) : TimeSeriesOut :=
  if p.isEmpty then ⟨[], [], []⟩
  else
    let pc := cumprod1p (p.map (·.2))
    let bc :=
      if !b.isEmpty then
        let al := alignedRows p b
        if !al.isEmpty then cumprod1p (al.map (fun r => r.2.2))
        else List.replicate pc.length 1
      else List.replicate pc.length 1
    ⟨p.map (·.1), pc.map (fun v => rnd2 (v * 100000)),
      bc.map (fun v => rnd2 (v * 100000))⟩

/-! ### Rebalancing events and composition -/

/-- One displayed rebalancing event. -/
structure RebalEvent where
  date : ℕ
  etype : String
  description : String
  estimated_cost : ℚ
deriving DecidableEq

/-- `_get_rebalancing_events`: none for `never`; otherwise the schedule over
the full daily calendar horizon, skipping the first date (initial
allocation), each event with a policy label and a 0.1 placeholder cost. -/
def getRebalancingEvents (freq : String) (startD endD : ℕ) : List RebalEvent :=
  if freq == "never" then []
  else
    ((getRebalancingDates freq (dailyRange startD endD)).drop 1).map
      (fun d => ⟨d, freq ++ "_rebalance", "Rebalanced portfolio back to target weights", 1/10⟩)

/-- Display data of one portfolio (`Portfolio` row fields used by
`_get_portfolio_composition`). -/
structure PortfolioInfo where
  name : String
  category : String
  ptype : String
  currency : String
deriving DecidableEq

/-- One row of the echoed composition. -/
structure CompEntry where
  name : String
  weight : ℚ
  category : String
  ptype : String
  currency : String
deriving DecidableEq

/-- `_get_portfolio_composition`: echo each mix entry with the portfolio's
display fields, or a `(Not Found)` placeholder row when the portfolio id
does not resolve. -/
def getPortfolioComposition (info : ℕ → Option PortfolioInfo) (mix : List MixEntry) :
    List CompEntry :=
  mix.map (fun e =>
    match info e.pid with
    | some i => ⟨i.name, e.weight, i.category, i.ptype, i.currency⟩
    | none => ⟨"Portfolio " ++ toString e.pid ++ " (Not Found)", e.weight, "N/A", "N/A", "USD"⟩)

/-! ### The result sanitizer (`_clean_results`) -/

/-- A floating value as seen by `_clean_results`: finite, NaN, or a signed
infinity. -/
inductive FVal where
  | finite (q : ℚ)
  | nan
  | inf
  | ninf
deriving DecidableEq

/-- Whether a floating value is finite (`not (isnan or isinf)`). -/
def FVal.isFinite : FVal → Bool
  | .finite _ => true
  | _ => false

mutual

/-- A Python result tree as walked by `_clean_results`: dicts, lists,
floats (`np.floating` wrappers flagged by `isNp`), ints (`np.integer`
wrappers flagged by `isNp`), and opaque non-numeric leaves (strings,
`None`, ...). -/
inductive PyData where
  | pfloat (isNp : Bool) (v : FVal) : PyData
  | pint (isNp : Bool) (n : ℤ) : PyData
  | pstr (s : String) : PyData
  | pnone : PyData
  | plist (l : PyList) : PyData
  | pdict (d : PyDict) : PyData
deriving DecidableEq

/-- A Python list of result values. -/
inductive PyList where
  | nil : PyList
  | cons (head : PyData) (tail : PyList) : PyList
deriving DecidableEq

/-- A Python dict of result values (string keys). -/
inductive PyDict where
  | nil : PyDict
  | cons (key : String) (val : PyData) (tail : PyDict) : PyDict
deriving DecidableEq

end

mutual

/-- `_clean_results`: recursively clean dict values and list items; a float
that is NaN or infinite becomes plain `0.0`, a finite one becomes a plain
`float`; ints become plain `int`s; anything else is returned unchanged. -/
def cleanResults : PyData → PyData
  | .pfloat _ v => .pfloat false (if v.isFinite then v else .finite 0)
  | .pint _ n => .pint false n
  | .pstr s => .pstr s
  | .pnone => .pnone
  | .plist l => .plist (cleanResultsList l)
  | .pdict d => .pdict (cleanResultsDict d)

/-- `_clean_results` on a list. -/
def cleanResultsList : PyList → PyList
  | .nil => .nil
  | .cons h t => .cons (cleanResults h) (cleanResultsList t)

/-- `_clean_results` on a dict (keys are kept as they are). -/
def cleanResultsDict : PyDict → PyDict
  | .nil => .nil
  | .cons k v t => .cons k (cleanResults v) (cleanResultsDict t)

end

mutual

/-- A tree is sanitized when every float leaf is a plain finite float and
every int leaf is a plain int. -/
def isSanitized : PyData → Bool
  | .pfloat isNp v => !isNp && v.isFinite
  | .pint isNp _ => !isNp
  | .pstr _ => true
  | .pnone => true
  | .plist l => isSanitizedList l
  | .pdict d => isSanitizedDict d

/-- Sanitized predicate on lists. -/
def isSanitizedList : PyList → Bool
  | .nil => true
  | .cons h t => isSanitized h && isSanitizedList t

/-- Sanitized predicate on dicts. -/
def isSanitizedDict : PyDict → Bool
  | .nil => true
  | .cons _ v t => isSanitized v && isSanitizedDict t

end

/-! ### `run_backtest` -/

/-- The computed backtest result (the keys of the Python result dict). -/
structure BacktestResult where
  error : Option String
  performance_metrics : List (String × ℚ)
  time_series : TimeSeriesOut
  portfolio_composition : List CompEntry
  rebalancing_events : List RebalEvent
  rebalancing_frequency : String
  calculation_date : String
deriving DecidableEq

/-- The read-only collaborators of the engine: per-portfolio asset data
(`None` for a missing portfolio), benchmark returns, portfolio display
info, and the external `pyfolio.timeseries.perf_stats` call — the latter is
an oracle returning the already NaN-cleaned metric dict of lines 85–106
(including the basic-metrics fallback taken on an internal failure). -/
structure DataEnv where
  assetsOf : ℕ → Option (List AssetData)
  benchmark : RSeries
  info : ℕ → Option PortfolioInfo
  perfStats : List ℚ → List (String × ℚ)

/-- Per-portfolio return series provided by the environment. -/
def DataEnv.seriesOf (env : DataEnv) (pid : ℕ) : RSeries :=
  singlePortfolioReturns (env.assetsOf pid)

/-- `clean_metrics.get(key, 0)`. -/
def getMetric (cm : List (String × ℚ)) (k : String) : ℚ :=
  ((cm.find? (fun e => e.1 == k)).map (·.2)).getD 0

/-- `run_backtest`: build the per-portfolio returns DataFrame; an empty
DataFrame or an empty blended series produces a structured error result
with empty metrics, time series and events (returned without the final
sanitization pass).  Otherwise assemble the rounded performance metrics
(pyfolio metrics via the oracle, the safely computed total return, and the
comparison metrics), the chart time series, the composition snapshot and
the event list.  The final `_clean_results` call is the identity on this
ℚ-valued tree (see `toPyData_sanitized`/`cleanResults_of_sanitized`). -/
def runBacktest (env : DataEnv) (mix : List MixEntry) (freq : String)
    (startD endD : ℕ) (calcDate : String) : BacktestResult :=
  let comp := getPortfolioComposition env.info mix
  let df := buildDF env.seriesOf mix
  if dfEmpty df then
    ⟨some "No portfolio data found for the specified date range", [], ⟨[], [], []⟩,
      comp, [], freq, calcDate⟩
  else
    let pr := applyRebalancingLogic freq mix df
    if pr.isEmpty then
      ⟨some "Unable to calculate portfolio returns", [], ⟨[], [], []⟩,
        comp, [], freq, calcDate⟩
    else
      let br := env.benchmark
      let cm := env.perfStats (pr.map (·.2))
      let comparison := calculateComparisonMetrics pr br
      let ts := generateTimeSeries pr br
      let events := getRebalancingEvents freq startD endD
      let totalReturn := (((pr.map (·.2)).map (fun r => 1 + r)).prod - 1) * 100
      ⟨none,
        [("annual_return", rnd2 (getMetric cm "Annual return" * 100)),
         ("volatility", rnd2 (getMetric cm "Annual volatility" * 100)),
         ("sharpe_ratio", rnd3 (getMetric cm "Sharpe ratio")),
         ("max_drawdown", rnd2 (getMetric cm "Max drawdown" * 100)),
         ("sortino_ratio", rnd3 (getMetric cm "Sortino ratio")),
         ("total_return", rnd2 totalReturn)] ++ comparison,
        ts, comp, events, freq, calcDate⟩

/-! #### The result as a Python tree (for sanitization statements) -/

/-- Turn a Lean list of Python values into a `PyList`. -/
def toPyList : List PyData → PyList
  | [] => .nil
  | x :: xs => .cons x (toPyList xs)

/-- Turn a Lean association list into a `PyDict`. -/
def toPyDict : List (String × PyData) → PyDict
  | [] => .nil
  | (k, v) :: xs => .cons k v (toPyDict xs)

/-- A metric dict as a Python tree (plain finite floats). -/
def metricsToPy (m : List (String × ℚ)) : PyDict :=
  toPyDict (m.map (fun e => (e.1, .pfloat false (.finite e.2))))

/-- The time-series dict as a Python tree. -/
def tsToPy (ts : TimeSeriesOut) : PyDict :=
  toPyDict
    [("dates", .plist (toPyList (ts.dates.map (fun d => .pstr (toString d))))),
     ("portfolio_values", .plist (toPyList (ts.portfolio_values.map (fun v => .pfloat false (.finite v))))),
     ("benchmark_values", .plist (toPyList (ts.benchmark_values.map (fun v => .pfloat false (.finite v)))))]

/-- One composition row as a Python tree. -/
def compToPy (c : CompEntry) : PyData :=
  .pdict (toPyDict
    [("name", .pstr c.name), ("weight", .pfloat false (.finite c.weight)),
     ("category", .pstr c.category), ("type", .pstr c.ptype),
     ("currency", .pstr c.currency)])

/-- One rebalancing event as a Python tree. -/
def eventToPy (e : RebalEvent) : PyData :=
  .pdict (toPyDict
    [("date", .pstr (toString e.date)), ("type", .pstr e.etype),
     ("description", .pstr e.description),
     ("estimated_cost", .pfloat false (.finite e.estimated_cost))])

/-- The whole result dict as a Python tree (the `error` key present only on
the degraded-data paths, as in the source). -/
def toPyData (r : BacktestResult) : PyData :=
  .pdict (toPyDict
    ((match r.error with
      | some s => [("error", PyData.pstr s)]
      | none => []) ++
     [("performance_metrics", .pdict (metricsToPy r.performance_metrics)),
      ("time_series", .pdict (tsToPy r.time_series)),
      ("portfolio_composition", .plist (toPyList (r.portfolio_composition.map compToPy))),
      ("rebalancing_events", .plist (toPyList (r.rebalancing_events.map eventToPy))),
      ("rebalancing_frequency", .pstr r.rebalancing_frequency),
      ("calculation_date", .pstr r.calculation_date)]))

/-! ### Claim-side specification of the rebalancing simulator

`specWVC1` is written from the specification's wording (§4.2 steps 1–4): a
state machine `(current weight vector, current portfolio value)` initialized
to `(target weights, 100000)`; on each later day reset to target on a
scheduled rebalance date, blend the day's returns with the current weight
vector by dot product, update the value multiplicatively, and drift each
weight by `w_i * (1 + r_i) / (1 + blended)` unless the blended return is
zero. -/
def specWVC1 (target : List ℚ) (row : ℕ → List ℚ) (reb : ℕ → Bool) : ℕ → List ℚ × ℚ
  | 0 => (target, 100000)
  | t + 1 =>
    let s := specWVC1 target row reb t
    let w1 := if reb (t + 1) then target else s.1
    let b := dotL w1 (row (t + 1))
    ((if b = 0 then w1
      else List.zipWith (fun wi ri => wi * (1 + ri) / (1 + b)) w1 (row (t + 1))),
      s.2 * (1 + b))

/-! ### Concrete data used by witnesses and counterexamples -/

/-- The specification's walkthrough scenario (§8): portfolio 1 holds one
asset priced 100 → 110 → 121 (returns `[0.10, 0.10]`), portfolio 2 one
asset priced 100 → 90 → 81 (returns `[-0.10, -0.10]`), on
2020-01-02/03/06. -/
def scnAssets : ℕ → Option (List AssetData)
  | 1 => some [⟨1, [(20200102, 100), (20200103, 110), (20200106, 121)]⟩]
  | 2 => some [⟨1, [(20200102, 100), (20200103, 90), (20200106, 81)]⟩]
  | _ => none

/-- Scenario mix: A = 60 %, B = 40 %. -/
def scnMix : List MixEntry := [⟨1, 60⟩, ⟨2, 40⟩]

/-- Scenario environment: no benchmark data, opaque portfolio info, and a
pyfolio oracle returning no metrics (irrelevant to the scenario claims). -/
def scnEnv : DataEnv := ⟨scnAssets, [], fun _ => none, fun _ => []⟩

/-- The scenario returns DataFrame. -/
def scnDF : RetDF := buildDF scnEnv.seriesOf scnMix

/-- A single 100 % portfolio whose asset price drops to 0 on the third day,
so the second daily return is −1. -/
def c5Assets : ℕ → Option (List AssetData)
  | 1 => some [⟨1, [(20200102, 100), (20200103, 100), (20200106, 0)]⟩]
  | _ => none

/-- Mix of the −100 % day example. -/
def c5Mix : List MixEntry := [⟨1, 100⟩]

/-- Environment of the −100 % day example. -/
def c5Env : DataEnv := ⟨c5Assets, [], fun _ => none, fun _ => []⟩

/-- Its returns DataFrame. -/
def c5DF : RetDF := buildDF c5Env.seriesOf c5Mix

/-- Its target-weight dict (`{1: 1.0}`). -/
def c5Tw : List (ℕ × ℚ) := c5Mix.map (fun e => (e.pid, e.weight / 100))

/-- Its monthly rebalance schedule. -/
def c5Rd : List ℕ := getRebalancingDates "monthly" c5DF.dates

/-- Blended series with two dates, used for the time-series counterexample. -/
def c9Blend : RSeries := [(1, 1/10), (2, 1/10)]

/-- Benchmark series covering only the first of those dates. -/
def c9Bench : RSeries := [(1, 0)]

/-- Portfolio returns for the comparison-metrics witness. -/
def c6P : RSeries := [(1, 1/100), (2, 2/100)]

/-- Benchmark returns for the comparison-metrics witness. -/
def c6B : RSeries := [(1, 1/100), (2, 3/100)]

/-- Environment with no resolvable portfolios at all. -/
def c8Env : DataEnv := ⟨fun _ => none, [], fun _ => none, fun _ => []⟩

/-- Mix requesting one (unresolvable) portfolio. -/
def c8Mix : List MixEntry := [⟨1, 100⟩]

/-- A small unsanitized result tree (a NaN float and numpy-wrapped leaves). -/
def c7Tree : PyData :=
  .pdict (.cons "a" (.pfloat true .nan)
    (.cons "b" (.plist (.cons (.pint true 3) (.cons (.pfloat false .inf) .nil))) .nil))

/-! ### Claim statements as predicates -/

/-- **Claim C1, statement.**  For the periodic-policy simulator: writing
`S t = (weight vector, value)` for the specification state machine
(`specWVC1`) driven by the day's matrix rows and the scheduled rebalance
dates, the engine's blended output series is indexed by every date after
the first and equals the percentage change of the value series, where the
value satisfies `value[t] = value[t-1] * (1 + blended[t])` with
`blended[t]` the dot product of the current weights with the day's returns,
starting from `value[0] = 100000`, and the weights drift by
`w_i * (1 + r_i) / (1 + blended)` (unchanged when `blended = 0`). -/
def RebalSimulatorSpec (sf : ℕ → RSeries) (mix : List MixEntry) (freq : String) : Prop :=
  let df := buildDF sf mix
  let target := mix.map (fun e => e.weight / 100)
  let row := fun t => mix.map (fun e => cellAt df e.pid t)
  let reb := fun t => (getRebalancingDates freq df.dates).contains (df.dates.getD t 0)
  let S := specWVC1 target row reb
  let out := applyRebalancingLogic freq mix df
  out.map (·.1) = df.dates.drop 1
  ∧ out.map (·.2)
      = (List.range (df.dates.length - 1)).map (fun t => (S (t + 1)).2 / (S t).2 - 1)
  ∧ (S 0).2 = 100000
  ∧ (∀ t, (S (t + 1)).2
      = (S t).2 * (1 + dotL (if reb (t + 1) then target else (S t).1) (row (t + 1))))
  ∧ (∀ t, (S (t + 1)).1
      = (if dotL (if reb (t + 1) then target else (S t).1) (row (t + 1)) = 0
         then (if reb (t + 1) then target else (S t).1)
         else List.zipWith
           (fun wi ri => wi * (1 + ri) /
             (1 + dotL (if reb (t + 1) then target else (S t).1) (row (t + 1))))
           (if reb (t + 1) then target else (S t).1) (row (t + 1))))

/-- **Claim C2, statement.**  Under policy `never` the blended return of
every date is the fixed-weight sum `Σ (weight_i/100) * r_i[t]` over the mix
entries, with the original target weights for the whole horizon, and the
output is indexed by the DataFrame dates. -/
def NeverBlendSpec (sf : ℕ → RSeries) (mix : List MixEntry) (t : ℕ) : Prop :=
  ((applyRebalancingLogic "never" mix (buildDF sf mix)).map (·.2)).getD t 0
      = (mix.map (fun e => e.weight / 100 * cellAt (buildDF sf mix) e.pid t)).sum
  ∧ (applyRebalancingLogic "never" mix (buildDF sf mix)).map (·.1) = (buildDF sf mix).dates

/-- **Claim C5 (amended), statement.**  With target weights summing to 1 and
no day on which the blended return is exactly −1, the simulator's weight
vector sums to 1 after every step, and the weights used on a scheduled
rebalance day are exactly the targets. -/
def WeightInvariantSpec (sf : ℕ → RSeries) (mix : List MixEntry) (rd : List ℕ) : Prop :=
  (∀ i, ((simState (buildDF sf mix) (mix.map (fun e => (e.pid, e.weight / 100))) rd i).1.map
      (·.2)).sum = 1)
  ∧ ∀ i, rd.contains ((buildDF sf mix).dates.getD (i + 1) 0) = true →
      (if rd.contains ((buildDF sf mix).dates.getD (i + 1) 0)
       then mix.map (fun e => (e.pid, e.weight / 100))
       else (simState (buildDF sf mix) (mix.map (fun e => (e.pid, e.weight / 100))) rd i).1)
        = mix.map (fun e => (e.pid, e.weight / 100))

/-- **Claim C6, statement.**  Degenerate inputs give the all-zero comparison
dict; otherwise the four metrics equal the formulas of §4.3 over the
date-aligned return pairs (reported as rounded percentages, beta as a
rounded ratio). -/
def ComparisonSpec (p b : RSeries) : Prop :=
  ((p = [] ∨ b = [] ∨ (alignedRows p b).length < 2) →
    calculateComparisonMetrics p b
      = [("benchmark_return", 0), ("excess_return", 0), ("beta", 0), ("alpha", 0)])
  ∧ (2 ≤ (alignedRows p b).length →
      calculateComparisonMetrics p b
        = [("benchmark_return",
              rnd2 (((((alignedRows p b).map (fun r => r.2.2)).map (fun r => 1 + r)).prod - 1) * 100)),
           ("excess_return",
              rnd2 ((((((alignedRows p b).map (fun r => r.2.1)).map (fun r => 1 + r)).prod - 1) * 100)
                - ((((alignedRows p b).map (fun r => r.2.2)).map (fun r => 1 + r)).prod - 1) * 100)),
           ("beta",
              rnd3 (if popVar ((alignedRows p b).map (fun r => r.2.2)) = 0 then 0
                else sampleCov ((alignedRows p b).map (fun r => r.2.1))
                    ((alignedRows p b).map (fun r => r.2.2))
                  / popVar ((alignedRows p b).map (fun r => r.2.2)))),
           ("alpha",
              rnd2 ((((1 + meanL ((alignedRows p b).map (fun r => r.2.1))) ^ 252 - 1 - 3/100)
                - (if popVar ((alignedRows p b).map (fun r => r.2.2)) = 0 then 0
                   else sampleCov ((alignedRows p b).map (fun r => r.2.1))
                       ((alignedRows p b).map (fun r => r.2.2))
                     / popVar ((alignedRows p b).map (fun r => r.2.2)))
                  * ((1 + meanL ((alignedRows p b).map (fun r => r.2.2))) ^ 252 - 1 - 3/100)) * 100))])

/-- **Claim C8, statement.**  With no usable price data the engine returns
(without raising) the structured error result: an `error` message, empty
`performance_metrics`, empty time series, empty events, and the echoed
composition and frequency; the result tree is a fixed point of the
sanitizer. -/
def EmptyDataSpec (env : DataEnv) (mix : List MixEntry) (freq : String)
    (startD endD : ℕ) (calcDate : String) : Prop :=
  runBacktest env mix freq startD endD calcDate
      = ⟨some "No portfolio data found for the specified date range", [], ⟨[], [], []⟩,
          getPortfolioComposition env.info mix, [], freq, calcDate⟩
  ∧ cleanResults (toPyData (runBacktest env mix freq startD endD calcDate))
      = toPyData (runBacktest env mix freq startD endD calcDate)

/-- **Claim C9 (amended), statement.**  For a non-empty blend: dates are the
blend dates; portfolio values are the cumulative `(1+r)` products scaled by
100000 (rounded to 2 dp); the benchmark curve is the same scaling over the
inner date join with the benchmark, which covers the joined dates only, and
degenerates to a flat 100000 line over all blend dates when the benchmark
or the join is empty. -/
def TimeSeriesSpec (p b : RSeries) : Prop :=
  (generateTimeSeries p b).dates = p.map (·.1)
  ∧ (generateTimeSeries p b).portfolio_values
      = (cumprod1p (p.map (·.2))).map (fun v => rnd2 (v * 100000))
  ∧ ((b = [] ∨ alignedRows p b = []) →
      (generateTimeSeries p b).benchmark_values = List.replicate p.length 100000)
  ∧ (b ≠ [] → alignedRows p b ≠ [] →
      (generateTimeSeries p b).benchmark_values
        = (cumprod1p ((alignedRows p b).map (fun r => r.2.2))).map (fun v => rnd2 (v * 100000)))

/-- **Claim C10, statement.**  A mix entry resolving to no return data has
an all-zero column in the returns DataFrame, and the `never` blend over the
full mix equals the blend over the mix with that entry removed, the other
entries keeping their original (un-renormalized) weights. -/
def ZeroContributionSpec (sf : ℕ → RSeries) (pre post : List MixEntry) (e0 : MixEntry) : Prop :=
  colOf (buildDF sf (pre ++ e0 :: post)) e0.pid
      = List.replicate (buildDF sf (pre ++ e0 :: post)).dates.length 0
  ∧ applyRebalancingLogic "never" (pre ++ e0 :: post) (buildDF sf (pre ++ e0 :: post))
      = applyRebalancingLogic "never" (pre ++ post) (buildDF sf (pre ++ post))

/-! ### General list helper lemmas -/

theorem getD_zipWith (f : ℚ → ℚ → ℚ) :
    ∀ (l1 l2 : List ℚ) (t : ℕ), t < l1.length → t < l2.length →
      (List.zipWith f l1 l2).getD t 0 = f (l1.getD t 0) (l2.getD t 0)
  | _ :: _, _ :: _, 0, _, _ => rfl
  | a :: l1, b :: l2, t + 1, h1, h2 => by
    simpa using getD_zipWith f l1 l2 t (by simpa using h1) (by simpa using h2)
  | [], _, t, h1, _ => absurd h1 (by simp)
  | _ :: _, [], t, _, h2 => absurd h2 (by simp)

theorem getD_map_lt {α : Type} (f : α → ℚ) (d : α) {l : List α} {t : ℕ}
    (ht : t < l.length) : (l.map f).getD t 0 = f (l.getD t d) := by
  rw [List.getD_eq_getElem _ _ (by simpa using ht), List.getD_eq_getElem _ _ ht,
    List.getElem_map]

theorem getD_replicate_zero (n t : ℕ) : (List.replicate n (0 : ℚ)).getD t 0 = 0 := by
  rcases Nat.lt_or_ge t n with h | h
  · rw [List.getD_eq_getElem _ _ (by simpa using h), List.getElem_replicate]
  · rw [List.getD_eq_getElem?_getD, List.getElem?_eq_none (by simpa using h)]
    rfl

theorem sum_map_div {α : Type} (l : List α) (f : α → ℚ) (c : ℚ) :
    (l.map (fun e => f e / c)).sum = (l.map f).sum / c := by
  induction l with
  | nil => simp
  | cons a l ih => simp [ih, add_div]

theorem sumColumns_cons (n : ℕ) (c : List ℚ) (cs : List (List ℚ)) :
    sumColumns n (c :: cs) = List.zipWith (· + ·) c (sumColumns n cs) := rfl

theorem sumColumns_length (n : ℕ) :
    ∀ (cs : List (List ℚ)), (∀ c ∈ cs, c.length = n) → (sumColumns n cs).length = n
  | [], _ => by simp [sumColumns]
  | c :: cs, h => by
    rw [sumColumns_cons, List.length_zipWith,
      sumColumns_length n cs (fun c' hc' => h c' (List.mem_cons_of_mem _ hc')),
      h c (List.mem_cons_self _ _)]
    exact min_self n

theorem sumColumns_getD (n t : ℕ) (ht : t < n) :
    ∀ (cs : List (List ℚ)), (∀ c ∈ cs, c.length = n) →
      (sumColumns n cs).getD t 0 = (cs.map (fun c => c.getD t 0)).sum
  | [], _ => by
    show (List.replicate n (0 : ℚ)).getD t 0 = ([] : List ℚ).sum
    simp [getD_replicate_zero]
  | c :: cs, h => by
    have hlen := sumColumns_length n cs (fun c' hc' => h c' (List.mem_cons_of_mem _ hc'))
    rw [sumColumns_cons,
      getD_zipWith _ _ _ t (by rw [h c (List.mem_cons_self _ _)]; exact ht) (by rw [hlen]; exact ht),
      sumColumns_getD n t ht cs (fun c' hc' => h c' (List.mem_cons_of_mem _ hc'))]
    simp

theorem unionDates_eq_nil {ss : List RSeries} (h : ∀ s ∈ ss, s = []) : unionDates ss = [] := by
  unfold unionDates
  have : ss.map (fun s => s.map (·.1)) = ss.map (fun _ => ([] : List ℕ)) :=
    List.map_congr_left fun s hs => by rw [h s hs]; rfl
  rw [this]
  induction ss with
  | nil => rfl
  | cons s ss _ => simp

theorem cumprod1p_go_length (acc : ℚ) : ∀ (l : List ℚ), (cumprod1p.go acc l).length = l.length
  | [] => rfl
  | r :: rest => by simp [cumprod1p.go, cumprod1p_go_length]

theorem cumprod1p_length (l : List ℚ) : (cumprod1p l).length = l.length :=
  cumprod1p_go_length 1 l

theorem eq_of_map_fst_snd {α β : Type} :
    ∀ {l1 l2 : List (α × β)}, l1.map Prod.fst = l2.map Prod.fst →
      l1.map Prod.snd = l2.map Prod.snd → l1 = l2
  | [], [], _, _ => rfl
  | [], _ :: _, h1, _ => by simp at h1
  | _ :: _, [], h1, _ => by simp at h1
  | a :: l1, b :: l2, h1, h2 => by
    simp only [List.map_cons, List.cons.injEq] at h1 h2
    exact by
      rw [eq_of_map_fst_snd h1.2 h2.2, Prod.ext h1.1 h2.1]

/-! ### Lemmas about the returns DataFrame -/

theorem buildDF_dates (sf : ℕ → RSeries) (mix : List MixEntry) :
    (buildDF sf mix).dates = unionDates (mix.map (fun e => sf e.pid)) := rfl

theorem buildDF_hasCol (sf : ℕ → RSeries) {mix : List MixEntry} {p : ℕ}
    (he : ∃ e ∈ mix, e.pid = p) : hasCol (buildDF sf mix) p = true := by
  obtain ⟨e, hem, hep⟩ := he
  simp only [hasCol, buildDF, List.any_eq_true]
  exact ⟨_, List.mem_map_of_mem _ hem, by simp [hep]⟩

/-- The columns of the built DataFrame. -/
theorem buildDF_cols (sf : ℕ → RSeries) (mix : List MixEntry) :
    (buildDF sf mix).cols
      = mix.map (fun e =>
          (e.pid, (unionDates (mix.map (fun e => sf e.pid))).map (lookup0 (sf e.pid)))) := rfl

/-- The column found for a portfolio id present in the mix is that id's
series looked up over the union index (well defined even with duplicate mix
entries, since a column depends only on its portfolio id). -/
theorem colOf_buildDF (sf : ℕ → RSeries) {mix : List MixEntry} {p : ℕ}
    (he : ∃ e ∈ mix, e.pid = p) :
    colOf (buildDF sf mix) p
      = (unionDates (mix.map (fun e => sf e.pid))).map (lookup0 (sf p)) := by
  unfold colOf
  rw [buildDF_cols, List.find?_map]
  have hpred : ((fun (c : ℕ × List ℚ) => c.1 == p) ∘ fun (e : MixEntry) =>
      (e.pid, (unionDates (mix.map (fun e => sf e.pid))).map (lookup0 (sf e.pid))))
      = (fun e : MixEntry => e.pid == p) := rfl
  rw [hpred]
  rcases hf : mix.find? (fun e => e.pid == p) with _ | e'
  · exfalso
    obtain ⟨e, hem, hep⟩ := he
    have : (mix.find? (fun e => e.pid == p)).isSome :=
      List.find?_isSome.mpr ⟨e, hem, by simp [hep]⟩
    rw [hf] at this
    simp at this
  · have hp : e'.pid = p := by
      have := List.find?_some hf
      simpa using this
    rw [hf]
    simp [hp]

theorem colOf_buildDF_length (sf : ℕ → RSeries) {mix : List MixEntry} {p : ℕ}
    (he : ∃ e ∈ mix, e.pid = p) :
    (colOf (buildDF sf mix) p).length = (buildDF sf mix).dates.length := by
  rw [colOf_buildDF sf he, buildDF_dates, List.length_map]

/-- A mix entry whose portfolio resolves to no data has an all-zero column. -/
theorem colOf_buildDF_of_empty (sf : ℕ → RSeries) {mix : List MixEntry} {p : ℕ}
    (he : ∃ e ∈ mix, e.pid = p) (h0 : sf p = []) :
    colOf (buildDF sf mix) p = List.replicate (buildDF sf mix).dates.length 0 := by
  rw [colOf_buildDF sf he, h0, buildDF_dates]
  rw [show lookup0 [] = fun _ => (0 : ℚ) from rfl]
  exact List.map_const' _ 0

theorem cellAt_buildDF_of_empty (sf : ℕ → RSeries) {mix : List MixEntry} {p : ℕ}
    (he : ∃ e ∈ mix, e.pid = p) (h0 : sf p = []) (t : ℕ) :
    cellAt (buildDF sf mix) p t = 0 := by
  unfold cellAt
  rw [colOf_buildDF_of_empty sf he h0, getD_replicate_zero]

/-- The matrix cell of an in-mix portfolio id is its series value at the
`t`-th union date. -/
theorem cellAt_buildDF (sf : ℕ → RSeries) {mix : List MixEntry} {p : ℕ}
    (he : ∃ e ∈ mix, e.pid = p) {t : ℕ} (ht : t < (buildDF sf mix).dates.length) :
    cellAt (buildDF sf mix) p t = lookup0 (sf p) ((buildDF sf mix).dates.getD t 0) := by
  unfold cellAt
  rw [colOf_buildDF sf he, buildDF_dates]
  exact getD_map_lt (lookup0 (sf p)) 0
    (l := unionDates (mix.map (fun e => sf e.pid))) (by simpa [buildDF_dates] using ht)

/-! ### Characterization of the `never` branch of `_apply_rebalancing_logic` -/

theorem never_eq (sf : ℕ → RSeries) (mix : List MixEntry) (hmix : mix ≠ [])
    (hd : (buildDF sf mix).dates ≠ []) :
    applyRebalancingLogic "never" mix (buildDF sf mix)
      = (buildDF sf mix).dates.zip
          (sumColumns (buildDF sf mix).dates.length
            (mix.map (fun e => (colOf (buildDF sf mix) e.pid).map (fun r => r * (e.weight / 100))))) := by
  have hde : dfEmpty (buildDF sf mix) = false := by
    unfold dfEmpty
    rw [buildDF_cols]
    simp [hd, hmix, List.isEmpty_iff]
  have hfilter : (mix.map (fun e => (e.pid, e.weight / 100))).filter
      (fun e => hasCol (buildDF sf mix) e.1) = mix.map (fun e => (e.pid, e.weight / 100)) := by
    apply List.filter_eq_self.mpr
    intro a ha
    obtain ⟨e, hem, rfl⟩ := List.mem_map.mp ha
    exact buildDF_hasCol sf ⟨e, hem, rfl⟩
  unfold applyRebalancingLogic
  rw [hde]
  simp only [Bool.false_eq_true, if_false, hfilter, List.map_map]
  have h1 : (("never" == "never") = true) := rfl
  rw [if_pos h1, if_neg]
  · rfl
  · simp [List.isEmpty_iff, hmix]

theorem never_wcols_length (sf : ℕ → RSeries) (mix : List MixEntry) :
    ∀ c ∈ mix.map (fun e => (colOf (buildDF sf mix) e.pid).map (fun r => r * (e.weight / 100))),
      c.length = (buildDF sf mix).dates.length := by
  intro c hc
  obtain ⟨e, hem, rfl⟩ := List.mem_map.mp hc
  rw [List.length_map, colOf_buildDF_length sf ⟨e, hem, rfl⟩]

theorem never_empty_of_dates_nil (sf : ℕ → RSeries) (mix : List MixEntry)
    (hd : (buildDF sf mix).dates = []) :
    applyRebalancingLogic "never" mix (buildDF sf mix) = [] := by
  unfold applyRebalancingLogic dfEmpty
  rw [hd]
  rfl

/-- The blended `never` series is indexed exactly by the DataFrame dates. -/
theorem never_map_fst (sf : ℕ → RSeries) (mix : List MixEntry) :
    (applyRebalancingLogic "never" mix (buildDF sf mix)).map (·.1)
      = (buildDF sf mix).dates := by
  by_cases hmix : mix = []
  · subst hmix
    rfl
  · by_cases hd : (buildDF sf mix).dates = []
    · rw [never_empty_of_dates_nil sf mix hd, hd]
      rfl
    · rw [never_eq sf mix hmix hd]
      exact List.map_fst_zip _ _ (le_of_eq (sumColumns_length _ _ (never_wcols_length sf mix)).symm)

theorem never_length (sf : ℕ → RSeries) (mix : List MixEntry) :
    (applyRebalancingLogic "never" mix (buildDF sf mix)).length
      = (buildDF sf mix).dates.length := by
  rw [← never_map_fst sf mix, List.length_map]

/-- Element-wise value of the `never` blend: the fixed-weight sum of the
day's matrix cells over all mix entries. -/
theorem never_snd_getD (sf : ℕ → RSeries) (mix : List MixEntry) {t : ℕ}
    (ht : t < (buildDF sf mix).dates.length) :
    ((applyRebalancingLogic "never" mix (buildDF sf mix)).map (·.2)).getD t 0
      = (mix.map (fun e => e.weight / 100 * cellAt (buildDF sf mix) e.pid t)).sum := by
  have hmix : mix ≠ [] := by
    rintro rfl
    simp only [buildDF_dates] at ht
    simp [unionDates] at ht
  have hd : (buildDF sf mix).dates ≠ [] := by
    intro h
    rw [h] at ht
    simp at ht
  rw [never_eq sf mix hmix hd,
    List.map_snd_zip _ _ (le_of_eq (sumColumns_length _ _ (never_wcols_length sf mix))),
    sumColumns_getD _ t ht _ (never_wcols_length sf mix), List.map_map]
  apply congrArg
  apply List.map_congr_left
  intro e hem
  show ((colOf (buildDF sf mix) e.pid).map (fun r => r * (e.weight / 100))).getD t 0
    = e.weight / 100 * cellAt (buildDF sf mix) e.pid t
  rw [getD_map_lt _ 0 (by rw [colOf_buildDF_length sf ⟨e, hem, rfl⟩]; exact ht)]
  exact mul_comm _ _

/-! ### Bridging the simulator loop with the claim-side state machine -/

theorem hasCol_of_fst_eq (sf : ℕ → RSeries) {mix : List MixEntry} {w : List (ℕ × ℚ)}
    (hfst : w.map (·.1) = mix.map (·.pid)) :
    ∀ e ∈ w, hasCol (buildDF sf mix) e.1 = true := by
  intro e he
  have h1 : e.1 ∈ mix.map (·.pid) := hfst ▸ List.mem_map_of_mem _ he
  obtain ⟨e', he', hp⟩ := List.mem_map.mp h1
  exact buildDF_hasCol sf ⟨e', he', hp⟩

theorem dayReturnAt_eq_dot (df : RetDF) (i : ℕ) :
    ∀ (w : List (ℕ × ℚ)), (∀ e ∈ w, hasCol df e.1 = true) →
      dayReturnAt df w i = dotL (w.map (·.2)) (w.map (fun e => cellAt df e.1 i))
  | [], _ => rfl
  | a :: w, hw => by
    have ha := hw a (List.mem_cons_self _ _)
    have ih := dayReturnAt_eq_dot df i w (fun e he => hw e (List.mem_cons_of_mem _ he))
    unfold dayReturnAt dotL at ih ⊢
    simp only [List.map_cons, List.zipWith_cons_cons, List.sum_cons, ha, if_true, ih]
    ring

theorem driftStep_fst (df : RetDF) (i : ℕ) (d : ℚ) (w : List (ℕ × ℚ)) :
    (driftStep df i d w).map (·.1) = w.map (·.1) := by
  unfold driftStep
  rw [List.map_map]
  apply List.map_congr_left
  intro e _
  by_cases h : hasCol df e.1 = true <;> simp [h]

theorem driftStep_snd (df : RetDF) (i : ℕ) (d : ℚ) :
    ∀ (w : List (ℕ × ℚ)), (∀ e ∈ w, hasCol df e.1 = true) →
      (driftStep df i d w).map (·.2)
        = List.zipWith (fun wi ri => wi * (1 + ri) / (1 + d))
            (w.map (·.2)) (w.map (fun e => cellAt df e.1 i))
  | [], _ => rfl
  | a :: w, hw => by
    have ha := hw a (List.mem_cons_self _ _)
    have ih := driftStep_snd df i d w (fun e he => hw e (List.mem_cons_of_mem _ he))
    unfold driftStep at ih ⊢
    simp only [List.map_cons, List.zipWith_cons_cons, ha, if_true, ih]

/-- One step of the loop body preserves the id skeleton and tracks the
specification's vector-state update. -/
theorem bridge_step (sf : ℕ → RSeries) (mix : List MixEntry) (i : ℕ)
    (w : List (ℕ × ℚ)) (ws : List ℚ)
    (hfst : w.map (·.1) = mix.map (·.pid)) (hsnd : w.map (·.2) = ws) :
    dayReturnAt (buildDF sf mix) w i
        = dotL ws (mix.map (fun e => cellAt (buildDF sf mix) e.pid i))
    ∧ (if dayReturnAt (buildDF sf mix) w i = 0 then w
       else driftStep (buildDF sf mix) i (dayReturnAt (buildDF sf mix) w i) w).map (·.1)
        = mix.map (·.pid)
    ∧ (if dayReturnAt (buildDF sf mix) w i = 0 then w
       else driftStep (buildDF sf mix) i (dayReturnAt (buildDF sf mix) w i) w).map (·.2)
        = (if dotL ws (mix.map (fun e => cellAt (buildDF sf mix) e.pid i)) = 0 then ws
           else List.zipWith
             (fun wi ri => wi * (1 + ri) /
               (1 + dotL ws (mix.map (fun e => cellAt (buildDF sf mix) e.pid i))))
             ws (mix.map (fun e => cellAt (buildDF sf mix) e.pid i))) := by
  have hcols := hasCol_of_fst_eq sf hfst
  have hrow : w.map (fun e => cellAt (buildDF sf mix) e.1 i)
      = mix.map (fun e => cellAt (buildDF sf mix) e.pid i) := by
    have h' : w.map (fun e => cellAt (buildDF sf mix) e.1 i)
        = (w.map (·.1)).map (fun p => cellAt (buildDF sf mix) p i) := by
      rw [List.map_map]
      rfl
    rw [h', hfst, List.map_map]
    rfl
  have hd : dayReturnAt (buildDF sf mix) w i
      = dotL ws (mix.map (fun e => cellAt (buildDF sf mix) e.pid i)) := by
    rw [dayReturnAt_eq_dot _ i w hcols, hsnd, hrow]
  refine ⟨hd, ?_, ?_⟩
  · by_cases hz : dayReturnAt (buildDF sf mix) w i = 0
    · rw [if_pos hz]
      exact hfst
    · rw [if_neg hz, driftStep_fst]
      exact hfst
  · by_cases hz : dayReturnAt (buildDF sf mix) w i = 0
    · rw [if_pos hz, if_pos (hd ▸ hz), hsnd]
    · rw [if_neg hz, if_neg (hd ▸ hz), driftStep_snd _ i _ w hcols, hsnd, hrow, hd]

/-- The loop state of `_calculate_rebalanced_returns` carries the mix's
portfolio ids and agrees, componentwise, with the specification's
`(weight vector, value)` state machine. -/
theorem simState_eq_specWVC1 (sf : ℕ → RSeries) (mix : List MixEntry) (rd : List ℕ) :
    ∀ i : ℕ,
      (simState (buildDF sf mix) (mix.map (fun e => (e.pid, e.weight / 100))) rd i).1.map (·.1)
          = mix.map (·.pid)
      ∧ (simState (buildDF sf mix) (mix.map (fun e => (e.pid, e.weight / 100))) rd i).1.map (·.2)
          = (specWVC1 (mix.map (fun e => e.weight / 100))
              (fun t => mix.map (fun e => cellAt (buildDF sf mix) e.pid t))
              (fun t => rd.contains ((buildDF sf mix).dates.getD t 0)) i).1
      ∧ (simState (buildDF sf mix) (mix.map (fun e => (e.pid, e.weight / 100))) rd i).2
          = (specWVC1 (mix.map (fun e => e.weight / 100))
              (fun t => mix.map (fun e => cellAt (buildDF sf mix) e.pid t))
              (fun t => rd.contains ((buildDF sf mix).dates.getD t 0)) i).2
  | 0 => by
    refine ⟨?_, ?_, rfl⟩ <;> simp [simState, specWVC1, List.map_map]
  | i + 1 => by
    obtain ⟨h1, h2, h3⟩ := simState_eq_specWVC1 sf mix rd i
    have hw1fst : ((if rd.contains ((buildDF sf mix).dates.getD (i + 1) 0)
        then mix.map (fun e => (e.pid, e.weight / 100))
        else (simState (buildDF sf mix) (mix.map (fun e => (e.pid, e.weight / 100))) rd i).1).map
          (·.1)) = mix.map (·.pid) := by
      by_cases hreb : rd.contains ((buildDF sf mix).dates.getD (i + 1) 0)
      · rw [if_pos hreb, List.map_map]
        rfl
      · rw [if_neg hreb]
        exact h1
    have hw1snd : ((if rd.contains ((buildDF sf mix).dates.getD (i + 1) 0)
        then mix.map (fun e => (e.pid, e.weight / 100))
        else (simState (buildDF sf mix) (mix.map (fun e => (e.pid, e.weight / 100))) rd i).1).map
          (·.2))
        = (if rd.contains ((buildDF sf mix).dates.getD (i + 1) 0)
           then mix.map (fun e => e.weight / 100)
           else (specWVC1 (mix.map (fun e => e.weight / 100))
             (fun t => mix.map (fun e => cellAt (buildDF sf mix) e.pid t))
             (fun t => rd.contains ((buildDF sf mix).dates.getD t 0)) i).1) := by
      by_cases hreb : rd.contains ((buildDF sf mix).dates.getD (i + 1) 0)
      · rw [if_pos hreb, if_pos hreb, List.map_map]
        rfl
      · rw [if_neg hreb, if_neg hreb]
        exact h2
    obtain ⟨hd, hf, hs⟩ := bridge_step sf mix (i + 1) _ _ hw1fst hw1snd
    refine ⟨hf, ?_, ?_⟩
    · rw [show (specWVC1 (mix.map (fun e => e.weight / 100))
          (fun t => mix.map (fun e => cellAt (buildDF sf mix) e.pid t))
          (fun t => rd.contains ((buildDF sf mix).dates.getD t 0)) (i + 1)).1
        = (if dotL (if rd.contains ((buildDF sf mix).dates.getD (i + 1) 0)
              then mix.map (fun e => e.weight / 100)
              else (specWVC1 (mix.map (fun e => e.weight / 100))
                (fun t => mix.map (fun e => cellAt (buildDF sf mix) e.pid t))
                (fun t => rd.contains ((buildDF sf mix).dates.getD t 0)) i).1)
              (mix.map (fun e => cellAt (buildDF sf mix) e.pid (i + 1))) = 0
           then (if rd.contains ((buildDF sf mix).dates.getD (i + 1) 0)
              then mix.map (fun e => e.weight / 100)
              else (specWVC1 (mix.map (fun e => e.weight / 100))
                (fun t => mix.map (fun e => cellAt (buildDF sf mix) e.pid t))
                (fun t => rd.contains ((buildDF sf mix).dates.getD t 0)) i).1)
           else List.zipWith
             (fun wi ri => wi * (1 + ri) /
               (1 + dotL (if rd.contains ((buildDF sf mix).dates.getD (i + 1) 0)
                  then mix.map (fun e => e.weight / 100)
                  else (specWVC1 (mix.map (fun e => e.weight / 100))
                    (fun t => mix.map (fun e => cellAt (buildDF sf mix) e.pid t))
                    (fun t => rd.contains ((buildDF sf mix).dates.getD t 0)) i).1)
                  (mix.map (fun e => cellAt (buildDF sf mix) e.pid (i + 1)))))
             (if rd.contains ((buildDF sf mix).dates.getD (i + 1) 0)
              then mix.map (fun e => e.weight / 100)
              else (specWVC1 (mix.map (fun e => e.weight / 100))
                (fun t => mix.map (fun e => cellAt (buildDF sf mix) e.pid t))
                (fun t => rd.contains ((buildDF sf mix).dates.getD t 0)) i).1)
             (mix.map (fun e => cellAt (buildDF sf mix) e.pid (i + 1)))) from rfl]
      exact hs
    · show (simState (buildDF sf mix) (mix.map (fun e => (e.pid, e.weight / 100))) rd i).2
          * (1 + dayReturnAt (buildDF sf mix)
            (if rd.contains ((buildDF sf mix).dates.getD (i + 1) 0)
             then mix.map (fun e => (e.pid, e.weight / 100))
             else (simState (buildDF sf mix)
               (mix.map (fun e => (e.pid, e.weight / 100))) rd i).1) (i + 1)) = _
      rw [h3, hd]
      rfl

theorem pctChangeVals_range_map (g : ℕ → ℚ) (n : ℕ) :
    pctChangeVals ((List.range n).map g)
      = (List.range (n - 1)).map (fun t => g (t + 1) / g t - 1) := by
  apply List.ext_getElem
  · simp only [pctChangeVals, List.length_zipWith, List.length_map, List.length_range,
      List.length_tail]
    omega
  · intro t h1 h2
    simp only [pctChangeVals] at h1 ⊢
    rw [List.getElem_zipWith, List.getElem_tail]
    simp [List.getElem_map, List.getElem_range]

theorem calcRebalancedReturns_pct (sf : ℕ → RSeries) (mix : List MixEntry) (rd : List ℕ) :
    calcRebalancedReturns (buildDF sf mix) (mix.map (fun e => (e.pid, e.weight / 100))) rd
      = ((buildDF sf mix).dates.drop 1).zip
          ((List.range ((buildDF sf mix).dates.length - 1)).map
            (fun t =>
              (specWVC1 (mix.map (fun e => e.weight / 100))
                (fun u => mix.map (fun e => cellAt (buildDF sf mix) e.pid u))
                (fun u => rd.contains ((buildDF sf mix).dates.getD u 0)) (t + 1)).2
              / (specWVC1 (mix.map (fun e => e.weight / 100))
                (fun u => mix.map (fun e => cellAt (buildDF sf mix) e.pid u))
                (fun u => rd.contains ((buildDF sf mix).dates.getD u 0)) t).2 - 1)) := by
  have hunfold : calcRebalancedReturns (buildDF sf mix)
      (mix.map (fun e => (e.pid, e.weight / 100))) rd
      = ((buildDF sf mix).dates.drop 1).zip
        (pctChangeVals ((List.range (buildDF sf mix).dates.length).map
          (fun i => (simState (buildDF sf mix)
            (mix.map (fun e => (e.pid, e.weight / 100))) rd i).2))) := rfl
  have hvals : (List.range (buildDF sf mix).dates.length).map
      (fun i => (simState (buildDF sf mix) (mix.map (fun e => (e.pid, e.weight / 100))) rd i).2)
      = (List.range (buildDF sf mix).dates.length).map
        (fun i => (specWVC1 (mix.map (fun e => e.weight / 100))
          (fun u => mix.map (fun e => cellAt (buildDF sf mix) e.pid u))
          (fun u => rd.contains ((buildDF sf mix).dates.getD u 0)) i).2) := by
    apply List.map_congr_left
    intro i _
    exact (simState_eq_specWVC1 sf mix rd i).2.2
  rw [hunfold, hvals, pctChangeVals_range_map]

theorem buildDF_dates_nil_of_mix_nil (sf : ℕ → RSeries) : (buildDF sf []).dates = [] := rfl

theorem mix_ne_nil_of_dates_ne_nil {sf : ℕ → RSeries} {mix : List MixEntry}
    (hd : (buildDF sf mix).dates ≠ []) : mix ≠ [] := by
  rintro rfl
  exact hd (buildDF_dates_nil_of_mix_nil sf)

/-- A non-`never` frequency takes the simulator branch. -/
theorem applyRebal_periodic (sf : ℕ → RSeries) (mix : List MixEntry) (freq : String)
    (hne : (freq == "never") = false) (hd : (buildDF sf mix).dates ≠ []) :
    applyRebalancingLogic freq mix (buildDF sf mix)
      = calcRebalancedReturns (buildDF sf mix) (mix.map (fun e => (e.pid, e.weight / 100)))
          (getRebalancingDates freq (buildDF sf mix).dates) := by
  have hmix := mix_ne_nil_of_dates_ne_nil hd
  have hde : dfEmpty (buildDF sf mix) = false := by
    unfold dfEmpty
    rw [buildDF_cols]
    simp [hd, hmix, List.isEmpty_iff]
  unfold applyRebalancingLogic
  rw [hde, hne]
  rfl

/-- **C1 (confirmed).**  For every periodic rebalance policy (monthly,
quarterly, semi_annually, annually) and every duplicate-free mix over a
non-empty aligned return matrix, `_apply_rebalancing_logic` produces the
blended series described by the specification's state machine: blended
return = dot product of current weights with the day's returns,
`value[t] = value[t-1] * (1 + blended)` from `value[0] = 100000`, weights
drifting by `w_i (1 + r_i) / (1 + blended)` except when the blended return
is zero, the output being the percentage change of the value series with
the first (undefined) element dropped (dates after the first). -/
theorem simulator_blended_series_spec (sf : ℕ → RSeries) (mix : List MixEntry) (freq : String)
    (hfreq : freq = "monthly" ∨ freq = "quarterly" ∨ freq = "semi_annually" ∨ freq = "annually")
    (hnd : (mix.map (·.pid)).Nodup) (hd : (buildDF sf mix).dates ≠ []) :
    RebalSimulatorSpec sf mix freq := by
  have hfne : (freq == "never") = false := by
    rcases hfreq with rfl | rfl | rfl | rfl <;> rfl
  simp only [RebalSimulatorSpec]
  refine ⟨?_, ?_, rfl, fun t => rfl, fun t => rfl⟩
  · rw [applyRebal_periodic sf mix freq hfne hd, calcRebalancedReturns_pct]
    exact List.map_fst_zip _ _ (by simp)
  · rw [applyRebal_periodic sf mix freq hfne hd, calcRebalancedReturns_pct]
    exact List.map_snd_zip _ _ (by simp)

/-- Witness for C1: the walkthrough scenario run with the quarterly policy. -/
theorem simulator_blended_series_spec_witness :
    (((scnMix.map (·.pid)).Nodup ∧ (buildDF scnEnv.seriesOf scnMix).dates ≠ [])
      ∧ RebalSimulatorSpec scnEnv.seriesOf scnMix "quarterly") :=
  ⟨⟨by decide, by decide⟩,
    simulator_blended_series_spec scnEnv.seriesOf scnMix "quarterly"
      (Or.inr (Or.inl rfl)) (by decide) (by decide)⟩

/-- **C2 (confirmed).**  For policy `never` the blended return at every date
equals the fixed-weight sum `Σ (weight_i / 100) * r_i[t]` with the original
target weights, unchanged over the entire horizon (the formula does not
depend on earlier days: no drift). -/
theorem never_policy_fixed_weight_blend (sf : ℕ → RSeries) (mix : List MixEntry)
    (hnd : (mix.map (·.pid)).Nodup) (t : ℕ) (ht : t < (buildDF sf mix).dates.length) :
    NeverBlendSpec sf mix t :=
  ⟨never_snd_getD sf mix ht, never_map_fst sf mix⟩

/-- Witness for C2: first date of the walkthrough scenario. -/
theorem never_policy_fixed_weight_blend_witness :
    (((scnMix.map (·.pid)).Nodup ∧ 0 < (buildDF scnEnv.seriesOf scnMix).dates.length)
      ∧ NeverBlendSpec scnEnv.seriesOf scnMix 0) :=
  ⟨⟨by decide, by decide⟩,
    never_policy_fixed_weight_blend scnEnv.seriesOf scnMix (by decide) 0 (by decide)⟩

/-- **C3, counterexample.**  In the walkthrough scenario the emitted
`portfolio_values` list is not `[100000, 102000, 104040]`: the time-series
builder scales the cumulative products of the blended returns, so the
initial 100000 is never emitted and the list has only two entries. -/
theorem scn_portfolio_values_cex :
    (runBacktest scnEnv scnMix "never" 20200102 20200106
        "2026-01-01T00:00:00").time_series.portfolio_values
      ≠ [100000, 102000, 104040] := by decide!

/-- **C3 (amended).**  In the walkthrough scenario with policy `never`: the
blended returns are `[0.02, 0.02]`, the reported `total_return` is 4.04,
and the emitted `portfolio_values` are `[102000, 104040]` — the initial
100000 is not part of the output; instead `portfolio_values[0] =
100000 * (1 + blended[0])` and `portfolio_values[t] =
portfolio_values[t-1] * (1 + blended[t])` for `t > 0`. -/
theorem scn_never_results :
    (applyRebalancingLogic "never" scnMix scnDF).map (·.2) = [1/50, 1/50]
    ∧ getMetric (runBacktest scnEnv scnMix "never" 20200102 20200106
        "2026-01-01T00:00:00").performance_metrics "total_return" = 101/25
    ∧ (runBacktest scnEnv scnMix "never" 20200102 20200106
        "2026-01-01T00:00:00").time_series.portfolio_values = [102000, 104040]
    ∧ (102000 : ℚ) = 100000 * (1 + 1/50)
    ∧ (104040 : ℚ) = 102000 * (1 + 1/50) := by decide!

/-- **C4, counterexample.**  On the same scenario, policy `monthly` (both
return dates inside a single rebalance period) does not reproduce the
`never` output: the simulator consumes the first return date as the value
anchor, so the monthly blend is `[(d2, 0.02)]` while the `never` blend is
`[(d1, 0.02), (d2, 0.02)]`. -/
theorem scn_monthly_ne_never :
    applyRebalancingLogic "monthly" scnMix scnDF
      ≠ applyRebalancingLogic "never" scnMix scnDF := by decide!

/-- **C4 (amended).**  On the scenario, the `monthly` output equals the
`never` output with its first element dropped, and the derived results
shrink accordingly: `total_return` 2.0 instead of 4.04 and a one-point
time series. -/
theorem scn_monthly_drops_first :
    applyRebalancingLogic "monthly" scnMix scnDF
        = (applyRebalancingLogic "never" scnMix scnDF).drop 1
    ∧ (runBacktest scnEnv scnMix "monthly" 20200102 20200106
        "2026-01-01T00:00:00").time_series
        = ⟨[20200106], [102000], [100000]⟩
    ∧ getMetric (runBacktest scnEnv scnMix "monthly" 20200102 20200106
        "2026-01-01T00:00:00").performance_metrics "total_return" = 2 := by decide!

/-! ### Weight-sum preservation (C5) -/

theorem sum_map_add {α : Type} (l : List α) (f g : α → ℚ) :
    (l.map (fun x => f x + g x)).sum = (l.map f).sum + (l.map g).sum := by
  induction l with
  | nil => simp
  | cons a l ih => simp [ih]; ring

theorem dayReturnAt_sum (df : RetDF) (i : ℕ) (w : List (ℕ × ℚ))
    (hcols : ∀ e ∈ w, hasCol df e.1 = true) :
    dayReturnAt df w i = (w.map (fun e => e.2 * cellAt df e.1 i)).sum := by
  unfold dayReturnAt
  apply congrArg
  apply List.map_congr_left
  intro e he
  rw [if_pos (hcols e he)]
  exact mul_comm _ _

theorem driftStep_sum (df : RetDF) (i : ℕ) (w : List (ℕ × ℚ))
    (hcols : ∀ e ∈ w, hasCol df e.1 = true)
    (hw : (w.map (·.2)).sum = 1) (hne : 1 + dayReturnAt df w i ≠ 0) :
    ((driftStep df i (dayReturnAt df w i) w).map (·.2)).sum = 1 := by
  rw [driftStep_snd df i _ w hcols, List.zipWith_map, List.zipWith_same, sum_map_div]
  have hnum : (w.map (fun e => e.2 * (1 + cellAt df e.1 i))).sum
      = 1 + dayReturnAt df w i := by
    have : (w.map (fun e => e.2 * (1 + cellAt df e.1 i))).sum
        = (w.map (fun e => e.2 + e.2 * cellAt df e.1 i)).sum := by
      apply congrArg
      apply List.map_congr_left
      intro e _
      ring
    rw [this, sum_map_add, hw, dayReturnAt_sum df i w hcols]
  rw [hnum]
  exact div_self hne

theorem colOf_length_of_mem (sf : ℕ → RSeries) {mix : List MixEntry} {w : List (ℕ × ℚ)}
    (hfst : w.map (·.1) = mix.map (·.pid)) :
    ∀ e ∈ w, (colOf (buildDF sf mix) e.1).length = (buildDF sf mix).dates.length := by
  intro e he
  have h1 : e.1 ∈ mix.map (·.pid) := hfst ▸ List.mem_map_of_mem _ he
  obtain ⟨e', he', hp⟩ := List.mem_map.mp h1
  exact colOf_buildDF_length sf ⟨e', he', hp⟩

/-- Past the end of the date index every matrix cell is the `getD` default,
so the day's blended return vanishes. -/
theorem dayReturnAt_zero_of_ge (sf : ℕ → RSeries) {mix : List MixEntry} {w : List (ℕ × ℚ)}
    (hfst : w.map (·.1) = mix.map (·.pid)) {i : ℕ}
    (hge : (buildDF sf mix).dates.length ≤ i) :
    dayReturnAt (buildDF sf mix) w i = 0 := by
  unfold dayReturnAt
  apply List.sum_eq_zero
  intro x hx
  obtain ⟨e, he, rfl⟩ := List.mem_map.mp hx
  by_cases hc : hasCol (buildDF sf mix) e.1 = true
  · rw [if_pos hc]
    unfold cellAt
    rw [List.getD_eq_default _ _ (le_trans (le_of_eq (colOf_length_of_mem sf hfst e he)) hge)]
    exact zero_mul _
  · rw [if_neg hc]

/-- **C5 (amended).**  If the target weights sum to 1 then the simulator's
weight vector sums to 1 after every step — provided no in-range day has a
blended return of exactly −1 (the drift update divides by `1 + blended`,
which the code only guards against `blended == 0`) — and on a scheduled
rebalance date the weights used are exactly the targets. -/
theorem weight_vector_sum_invariant (sf : ℕ → RSeries) (mix : List MixEntry) (rd : List ℕ)
    (hsum : (mix.map (fun e => e.weight / 100)).sum = 1)
    (hsafe : ∀ i, i + 1 < (buildDF sf mix).dates.length →
      1 + dayReturnAt (buildDF sf mix)
        (if rd.contains ((buildDF sf mix).dates.getD (i + 1) 0)
         then mix.map (fun e => (e.pid, e.weight / 100))
         else (simState (buildDF sf mix) (mix.map (fun e => (e.pid, e.weight / 100))) rd i).1)
        (i + 1) ≠ 0) :
    WeightInvariantSpec sf mix rd := by
  simp only [WeightInvariantSpec]
  constructor
  · intro i
    induction i with
    | zero =>
      show ((mix.map (fun e => (e.pid, e.weight / 100))).map (·.2)).sum = 1
      rw [List.map_map]
      exact hsum
    | succ i ih =>
      have hw1fst : ((if rd.contains ((buildDF sf mix).dates.getD (i + 1) 0)
          then mix.map (fun e => (e.pid, e.weight / 100))
          else (simState (buildDF sf mix)
            (mix.map (fun e => (e.pid, e.weight / 100))) rd i).1).map (·.1))
          = mix.map (·.pid) := by
        by_cases hreb : rd.contains ((buildDF sf mix).dates.getD (i + 1) 0)
        · rw [if_pos hreb, List.map_map]
          rfl
        · rw [if_neg hreb]
          exact (simState_eq_specWVC1 sf mix rd i).1
      have hw1sum : ((if rd.contains ((buildDF sf mix).dates.getD (i + 1) 0)
          then mix.map (fun e => (e.pid, e.weight / 100))
          else (simState (buildDF sf mix)
            (mix.map (fun e => (e.pid, e.weight / 100))) rd i).1).map (·.2)).sum = 1 := by
        by_cases hreb : rd.contains ((buildDF sf mix).dates.getD (i + 1) 0)
        · rw [if_pos hreb, List.map_map]
          exact hsum
        · rw [if_neg hreb]
          exact ih
      have hcols := hasCol_of_fst_eq sf hw1fst
      show ((if dayReturnAt (buildDF sf mix)
            (if rd.contains ((buildDF sf mix).dates.getD (i + 1) 0)
             then mix.map (fun e => (e.pid, e.weight / 100))
             else (simState (buildDF sf mix)
               (mix.map (fun e => (e.pid, e.weight / 100))) rd i).1) (i + 1) = 0
          then (if rd.contains ((buildDF sf mix).dates.getD (i + 1) 0)
             then mix.map (fun e => (e.pid, e.weight / 100))
             else (simState (buildDF sf mix)
               (mix.map (fun e => (e.pid, e.weight / 100))) rd i).1)
          else driftStep (buildDF sf mix) (i + 1)
            (dayReturnAt (buildDF sf mix)
              (if rd.contains ((buildDF sf mix).dates.getD (i + 1) 0)
               then mix.map (fun e => (e.pid, e.weight / 100))
               else (simState (buildDF sf mix)
                 (mix.map (fun e => (e.pid, e.weight / 100))) rd i).1) (i + 1))
            (if rd.contains ((buildDF sf mix).dates.getD (i + 1) 0)
             then mix.map (fun e => (e.pid, e.weight / 100))
             else (simState (buildDF sf mix)
               (mix.map (fun e => (e.pid, e.weight / 100))) rd i).1)).map (·.2)).sum = 1
      by_cases hlt : i + 1 < (buildDF sf mix).dates.length
      · by_cases hz : dayReturnAt (buildDF sf mix)
            (if rd.contains ((buildDF sf mix).dates.getD (i + 1) 0)
             then mix.map (fun e => (e.pid, e.weight / 100))
             else (simState (buildDF sf mix)
               (mix.map (fun e => (e.pid, e.weight / 100))) rd i).1) (i + 1) = 0
        · rw [if_pos hz]
          exact hw1sum
        · rw [if_neg hz]
          exact driftStep_sum _ _ _ hcols hw1sum (hsafe i hlt)
      · have hz := dayReturnAt_zero_of_ge sf hw1fst (i := i + 1) (by omega)
        rw [if_pos hz]
        exact hw1sum
  · intro i h
    exact if_pos h

/-- **C5, counterexample.**  The claim fails as stated: with a single
portfolio at weight 100 % (target sum exactly 1) whose price falls to zero,
the blended return of the second day is −1, the guarded drift divides by
zero, and the simulator's weight vector no longer sums to 1 after that
step (in IEEE arithmetic the weight becomes NaN; in this exact model the
division by zero yields 0). -/
theorem weight_vector_sum_invariant_cex :
    (c5Mix.map (fun e => e.weight / 100)).sum = 1
    ∧ dayReturnAt c5DF c5Tw 1 = -1
    ∧ ((simState c5DF c5Tw c5Rd 1).1.map (·.2)).sum ≠ 1 := by decide!

/-- Witness for the amended C5: the walkthrough scenario under the monthly
schedule (no −100 % day). -/
theorem weight_vector_sum_invariant_witness :
    (scnMix.map (fun e => e.weight / 100)).sum = 1
    ∧ WeightInvariantSpec scnEnv.seriesOf scnMix
        (getRebalancingDates "monthly" (buildDF scnEnv.seriesOf scnMix).dates) :=
  ⟨by decide!,
    weight_vector_sum_invariant scnEnv.seriesOf scnMix
      (getRebalancingDates "monthly" (buildDF scnEnv.seriesOf scnMix).dates)
      (by decide!)
      (fun i hi => by
        have h2 : (buildDF scnEnv.seriesOf scnMix).dates.length = 2 := by decide!
        have h0 : i = 0 := by omega
        subst h0
        decide!)⟩

theorem alignedRows_nil_left (b : RSeries) : alignedRows [] b = [] := by
  unfold alignedRows
  rw [show (fun d => hasDate [] d && hasDate b d) = fun _ => false from by
    funext d
    rfl]
  simp

theorem alignedRows_nil_right (p : RSeries) : alignedRows p [] = [] := by
  unfold alignedRows
  rw [show (fun d => hasDate p d && hasDate [] d) = fun _ => false from by
    funext d
    simp [hasDate]]
  simp

/-- **C6 (confirmed).**  `_calculate_comparison_metrics` returns the all-zero
dict when either series is empty or fewer than 2 date-aligned points exist;
otherwise it returns exactly the §4.3 formulas: total returns as
`(∏(1+r) − 1)·100`, their difference as excess return,
`beta = cov/var(benchmark)` (0 on zero variance), and
`alpha = ((1+mean_p)^252 − 1 − 3%) − beta·((1+mean_b)^252 − 1 − 3%)`,
reported ×100; all rounded (2 dp, beta 3 dp). -/
theorem comparison_metrics_spec (p b : RSeries) : ComparisonSpec p b := by
  simp only [ComparisonSpec]
  constructor
  · intro hdeg
    unfold calculateComparisonMetrics
    by_cases h1 : (b.isEmpty || p.isEmpty) = true
    · rw [if_pos h1]
      rfl
    · have hlen : (alignedRows p b).length < 2 := by
        rcases hdeg with h | h | h
        · subst h
          simp at h1
        · subst h
          simp at h1
        · exact h
      rw [if_neg h1, if_pos (by simp [hlen])]
      rfl
  · intro hlen
    have hp : p ≠ [] := by
      rintro rfl
      rw [alignedRows_nil_left] at hlen
      simp at hlen
    have hb : b ≠ [] := by
      rintro rfl
      rw [alignedRows_nil_right] at hlen
      simp at hlen
    unfold calculateComparisonMetrics
    rw [if_neg (by simp [hp, hb, List.isEmpty_iff]), if_neg (by
      simp [List.isEmpty_iff]
      constructor
      · intro h
        rw [h] at hlen
        simp at hlen
      · omega)]
    simp only [ne_eq, ite_not]

/-- Witness for C6: two concrete series with two aligned points. -/
theorem comparison_metrics_spec_witness :
    (2 ≤ (alignedRows c6P c6B).length
      ∧ calculateComparisonMetrics c6P c6B
          = [("benchmark_return",
                rnd2 (((((alignedRows c6P c6B).map (fun r => r.2.2)).map (fun r => 1 + r)).prod - 1) * 100)),
             ("excess_return",
                rnd2 ((((((alignedRows c6P c6B).map (fun r => r.2.1)).map (fun r => 1 + r)).prod - 1) * 100)
                  - ((((alignedRows c6P c6B).map (fun r => r.2.2)).map (fun r => 1 + r)).prod - 1) * 100)),
             ("beta",
                rnd3 (if popVar ((alignedRows c6P c6B).map (fun r => r.2.2)) = 0 then 0
                  else sampleCov ((alignedRows c6P c6B).map (fun r => r.2.1))
                      ((alignedRows c6P c6B).map (fun r => r.2.2))
                    / popVar ((alignedRows c6P c6B).map (fun r => r.2.2)))),
             ("alpha",
                rnd2 ((((1 + meanL ((alignedRows c6P c6B).map (fun r => r.2.1))) ^ 252 - 1 - 3/100)
                  - (if popVar ((alignedRows c6P c6B).map (fun r => r.2.2)) = 0 then 0
                     else sampleCov ((alignedRows c6P c6B).map (fun r => r.2.1))
                         ((alignedRows c6P c6B).map (fun r => r.2.2))
                       / popVar ((alignedRows c6P c6B).map (fun r => r.2.2)))
                    * ((1 + meanL ((alignedRows c6P c6B).map (fun r => r.2.2))) ^ 252 - 1 - 3/100)) * 100))])
      ∧ calculateComparisonMetrics [] c6B
          = [("benchmark_return", 0), ("excess_return", 0), ("beta", 0), ("alpha", 0)] :=
  ⟨⟨by decide!, (comparison_metrics_spec c6P c6B).2 (by decide!)⟩,
    (comparison_metrics_spec [] c6B).1 (Or.inl rfl)⟩

/-! ### Sanitizer lemmas (C7) -/

mutual

theorem cleanResults_sanitized : ∀ x : PyData, isSanitized (cleanResults x) = true
  | .pfloat isNp v => by cases v <;> rfl
  | .pint _ _ => rfl
  | .pstr _ => rfl
  | .pnone => rfl
  | .plist l => cleanResultsList_sanitized l
  | .pdict d => cleanResultsDict_sanitized d

theorem cleanResultsList_sanitized : ∀ l : PyList, isSanitizedList (cleanResultsList l) = true
  | .nil => rfl
  | .cons h t => by
    show (isSanitized (cleanResults h) && isSanitizedList (cleanResultsList t)) = true
    rw [cleanResults_sanitized h, cleanResultsList_sanitized t]
    rfl

theorem cleanResultsDict_sanitized : ∀ d : PyDict, isSanitizedDict (cleanResultsDict d) = true
  | .nil => rfl
  | .cons k v t => by
    show (isSanitized (cleanResults v) && isSanitizedDict (cleanResultsDict t)) = true
    rw [cleanResults_sanitized v, cleanResultsDict_sanitized t]
    rfl

end

mutual

theorem cleanResults_of_sanitized : ∀ x : PyData, isSanitized x = true → cleanResults x = x
  | .pfloat isNp v, h => by
    cases v with
    | finite q =>
      cases isNp with
      | false => rfl
      | true => simp [isSanitized] at h
    | nan => simp [isSanitized, FVal.isFinite] at h
    | inf => simp [isSanitized, FVal.isFinite] at h
    | ninf => simp [isSanitized, FVal.isFinite] at h
  | .pint isNp n, h => by
    cases isNp with
    | false => rfl
    | true => simp [isSanitized] at h
  | .pstr _, _ => rfl
  | .pnone, _ => rfl
  | .plist l, h => by
    rw [show cleanResults (.plist l) = .plist (cleanResultsList l) from rfl,
      cleanResultsList_of_sanitized l (by simpa [isSanitized] using h)]
  | .pdict d, h => by
    rw [show cleanResults (.pdict d) = .pdict (cleanResultsDict d) from rfl,
      cleanResultsDict_of_sanitized d (by simpa [isSanitized] using h)]

theorem cleanResultsList_of_sanitized :
    ∀ l : PyList, isSanitizedList l = true → cleanResultsList l = l
  | .nil, _ => rfl
  | .cons x t, h => by
    have h' : isSanitized x = true ∧ isSanitizedList t = true := by
      simpa [isSanitizedList, Bool.and_eq_true] using h
    rw [show cleanResultsList (.cons x t)
        = .cons (cleanResults x) (cleanResultsList t) from rfl,
      cleanResults_of_sanitized x h'.1, cleanResultsList_of_sanitized t h'.2]

theorem cleanResultsDict_of_sanitized :
    ∀ d : PyDict, isSanitizedDict d = true → cleanResultsDict d = d
  | .nil, _ => rfl
  | .cons k v t, h => by
    have h' : isSanitized v = true ∧ isSanitizedDict t = true := by
      simpa [isSanitizedDict, Bool.and_eq_true] using h
    rw [show cleanResultsDict (.cons k v t)
        = .cons k (cleanResults v) (cleanResultsDict t) from rfl,
      cleanResults_of_sanitized v h'.1, cleanResultsDict_of_sanitized t h'.2]

end

/-- **C7 (confirmed).**  `_clean_results` replaces every non-finite float
leaf by plain `0.0` and converts numpy wrappers to plain numbers, its output
contains no NaN/infinity or wrapper leaf, and it is idempotent:
`sanitize (sanitize x) = sanitize x` for every tree of dicts, lists and
leaves. -/
theorem sanitizer_spec (x : PyData) :
    cleanResults (cleanResults x) = cleanResults x
    ∧ isSanitized (cleanResults x) = true
    ∧ (∀ (b : Bool) (v : FVal), v.isFinite = false →
        cleanResults (.pfloat b v) = .pfloat false (.finite 0))
    ∧ (∀ (b : Bool) (q : ℚ), cleanResults (.pfloat b (.finite q)) = .pfloat false (.finite q))
    ∧ (∀ (b : Bool) (n : ℤ), cleanResults (.pint b n) = .pint false n) :=
  ⟨cleanResults_of_sanitized _ (cleanResults_sanitized x), cleanResults_sanitized x,
    fun _ v hv => by
      cases v with
      | finite q => simp [FVal.isFinite] at hv
      | nan => rfl
      | inf => rfl
      | ninf => rfl,
    fun _ _ => rfl, fun _ _ => rfl⟩

/-- Witness for C7 on a concrete unsanitized tree. -/
theorem sanitizer_spec_witness :
    (FVal.nan.isFinite = false
      ∧ cleanResults (cleanResults c7Tree) = cleanResults c7Tree)
    ∧ cleanResults (.pfloat true .nan) = .pfloat false (.finite 0) :=
  ⟨⟨rfl, (sanitizer_spec c7Tree).1⟩, (sanitizer_spec c7Tree).2.2.1 true .nan rfl⟩

/-! ### The empty-data result (C8) -/

theorem toPyList_sanitized : ∀ {l : List PyData}, (∀ x ∈ l, isSanitized x = true) →
    isSanitizedList (toPyList l) = true
  | [], _ => rfl
  | x :: t, h => by
    show (isSanitized x && isSanitizedList (toPyList t)) = true
    rw [h x (List.mem_cons_self _ _), toPyList_sanitized (fun y hy => h y (List.mem_cons_of_mem _ hy))]
    rfl

theorem toPyDict_sanitized : ∀ {l : List (String × PyData)},
    (∀ e ∈ l, isSanitized e.2 = true) → isSanitizedDict (toPyDict l) = true
  | [], _ => rfl
  | (k, v) :: t, h => by
    show (isSanitized v && isSanitizedDict (toPyDict t)) = true
    rw [h (k, v) (List.mem_cons_self _ _),
      toPyDict_sanitized (fun y hy => h y (List.mem_cons_of_mem _ hy))]
    rfl

theorem metricsToPy_sanitized (m : List (String × ℚ)) :
    isSanitizedDict (metricsToPy m) = true := by
  apply toPyDict_sanitized
  intro e he
  obtain ⟨x, _, rfl⟩ := List.mem_map.mp he
  rfl

theorem tsToPy_sanitized (ts : TimeSeriesOut) : isSanitizedDict (tsToPy ts) = true := by
  apply toPyDict_sanitized
  intro e he
  simp only [tsToPy, List.mem_cons, List.not_mem_nil, or_false] at he
  rcases he with rfl | rfl | rfl <;>
    · show isSanitizedList (toPyList _) = true
      apply toPyList_sanitized
      intro x hx
      obtain ⟨y, _, rfl⟩ := List.mem_map.mp hx
      rfl

theorem compToPy_sanitized (c : CompEntry) : isSanitized (compToPy c) = true := rfl

theorem eventToPy_sanitized (e : RebalEvent) : isSanitized (eventToPy e) = true := rfl

/-- Every result the typed engine can produce is, as a Python tree, already
sanitized (all its numeric leaves are finite plain numbers). -/
theorem toPyData_sanitized (r : BacktestResult) : isSanitized (toPyData r) = true := by
  show isSanitizedDict (toPyDict _) = true
  apply toPyDict_sanitized
  intro e he
  rw [List.mem_append] at he
  rcases he with he | he
  · rcases herr : r.error with _ | s <;> rw [herr] at he
    · simp at he
    · simp only [List.mem_cons, List.not_mem_nil, or_false] at he
      subst he
      rfl
  · simp only [List.mem_cons, List.not_mem_nil, or_false] at he
    rcases he with rfl | rfl | rfl | rfl | rfl | rfl
    · exact metricsToPy_sanitized _
    · exact tsToPy_sanitized _
    · show isSanitizedList (toPyList _) = true
      apply toPyList_sanitized
      intro x hx
      obtain ⟨y, _, rfl⟩ := List.mem_map.mp hx
      exact compToPy_sanitized y
    · show isSanitizedList (toPyList _) = true
      apply toPyList_sanitized
      intro x hx
      obtain ⟨y, _, rfl⟩ := List.mem_map.mp hx
      exact eventToPy_sanitized y
    · rfl
    · rfl

/-- **C8 (confirmed).**  When no mix entry resolves to any return data,
`run_backtest` takes the structured early-return path: no exception, an
`error` message, `performance_metrics = {}`, empty time series and events,
the echoed composition and frequency — and the result tree is a fixed
point of the sanitizer. -/
theorem empty_data_result (env : DataEnv) (mix : List MixEntry) (freq : String)
    (startD endD : ℕ) (calcDate : String)
    (h : ∀ e ∈ mix, env.seriesOf e.pid = []) :
    EmptyDataSpec env mix freq startD endD calcDate := by
  have hnil : ∀ s ∈ mix.map (fun e => env.seriesOf e.pid), s = [] := by
    intro s hs
    obtain ⟨e, he, rfl⟩ := List.mem_map.mp hs
    exact h e he
  have hdf : dfEmpty (buildDF env.seriesOf mix) = true := by
    unfold dfEmpty
    rw [buildDF_dates, unionDates_eq_nil hnil]
    rfl
  have hrun : runBacktest env mix freq startD endD calcDate
      = ⟨some "No portfolio data found for the specified date range", [], ⟨[], [], []⟩,
          getPortfolioComposition env.info mix, [], freq, calcDate⟩ := by
    unfold runBacktest
    simp only [hdf, if_true]
  exact ⟨hrun, by rw [hrun]; exact cleanResults_of_sanitized _ (toPyData_sanitized _)⟩

/-- Witness for C8: a mix whose only portfolio id resolves to nothing. -/
theorem empty_data_result_witness :
    ((∀ e ∈ c8Mix, c8Env.seriesOf e.pid = [])
      ∧ EmptyDataSpec c8Env c8Mix "never" 20200101 20200110 "2026-01-01T00:00:00") :=
  ⟨by decide!,
    empty_data_result c8Env c8Mix "never" 20200101 20200110 "2026-01-01T00:00:00" (by decide!)⟩

/-! ### Time-series builder (C9) -/

theorem generateTimeSeries_eq (p b : RSeries) (hp : p ≠ []) :
    generateTimeSeries p b
      = ⟨p.map (·.1),
          (cumprod1p (p.map (·.2))).map (fun v => rnd2 (v * 100000)),
          (if !b.isEmpty then
             (if !(alignedRows p b).isEmpty then
                cumprod1p ((alignedRows p b).map (fun r => r.2.2))
              else List.replicate (cumprod1p (p.map (·.2))).length 1)
           else List.replicate (cumprod1p (p.map (·.2))).length 1).map
            (fun v => rnd2 (v * 100000))⟩ := by
  unfold generateTimeSeries
  rw [if_neg (by simp [List.isEmpty_iff, hp])]

theorem rnd2_flat : rnd2 ((1 : ℚ) * 100000) = 100000 := by decide!

/-- **C9 (amended).**  For a non-empty blend, `_generate_time_series` emits
the blend's dates, the cumulative-product portfolio curve scaled by 100000,
and a benchmark curve over the inner date join with the benchmark (so over
the joined dates only — not necessarily one value per blend date), falling
back to a flat 100000 line over all blend dates when the benchmark series
or the join is empty. -/
theorem time_series_spec (p b : RSeries) (hp : p ≠ []) : TimeSeriesSpec p b := by
  simp only [TimeSeriesSpec]
  rw [generateTimeSeries_eq p b hp]
  refine ⟨rfl, rfl, ?_, ?_⟩
  · intro hdeg
    have hflat : (List.replicate (cumprod1p (p.map (·.2))).length (1 : ℚ)).map
        (fun v => rnd2 (v * 100000)) = List.replicate p.length 100000 := by
      rw [List.map_replicate, rnd2_flat, cumprod1p_length, List.length_map]
    rcases hdeg with rfl | hal
    · simp only [List.isEmpty_nil, Bool.not_true, Bool.false_eq_true, if_false]
      exact hflat
    · by_cases hb : b.isEmpty = true
      · rw [hb]
        simp only [Bool.not_true, Bool.false_eq_true, if_false]
        exact hflat
      · rw [show b.isEmpty = false from by simpa using hb]
        simp only [Bool.not_false, if_true]
        rw [show (alignedRows p b).isEmpty = true from by simp [List.isEmpty_iff, hal]]
        simp only [Bool.not_true, Bool.false_eq_true, if_false]
        exact hflat
  · intro hb hal
    rw [show b.isEmpty = false from by simp [List.isEmpty_iff, hb],
      show (alignedRows p b).isEmpty = false from by simp [List.isEmpty_iff, hal]]
    rfl

/-- **C9, counterexample.**  The claim's "a benchmark value is produced for
every blend date" fails: with a two-date blend and a benchmark known on
only the first date, the inner join has one row, so `benchmark_values` has
one entry while `dates` has two. -/
theorem time_series_join_cex :
    (generateTimeSeries c9Blend c9Bench).benchmark_values.length
      ≠ (generateTimeSeries c9Blend c9Bench).dates.length := by decide!

/-- Witness for the amended C9: a non-empty blend with an empty benchmark
(flat 100000 line). -/
theorem time_series_spec_witness :
    (c9Blend ≠ [] ∧ TimeSeriesSpec c9Blend []) :=
  ⟨by decide!, time_series_spec c9Blend [] (by decide!)⟩

/-! ### A no-data mix entry contributes zero (C10) -/

theorem unionDates_middle_empty (sf : ℕ → RSeries) (pre post : List MixEntry) (e0 : MixEntry)
    (h0 : sf e0.pid = []) :
    unionDates ((pre ++ e0 :: post).map (fun e => sf e.pid))
      = unionDates ((pre ++ post).map (fun e => sf e.pid)) := by
  unfold unionDates
  congr 1
  simp [List.map_append, List.flatten_append, h0]

/-- **C10 (confirmed).**  A mix entry whose portfolio resolves to no return
data owns an all-zero column, and the `never` blend over the full mix equals
the blend over the mix without that entry — the other entries' weights enter
unscaled (no renormalization), i.e. the no-data entry behaves as a
zero-return cash holding. -/
theorem zero_contribution (sf : ℕ → RSeries) (pre post : List MixEntry) (e0 : MixEntry)
    (hnd : ((pre ++ e0 :: post).map (·.pid)).Nodup)
    (h0 : sf e0.pid = []) :
    ZeroContributionSpec sf pre post e0 := by
  have hds := unionDates_middle_empty sf pre post e0 h0
  have hdates : (buildDF sf (pre ++ e0 :: post)).dates = (buildDF sf (pre ++ post)).dates := by
    rw [buildDF_dates, buildDF_dates, hds]
  have he0 : ∃ e ∈ pre ++ e0 :: post, e.pid = e0.pid := ⟨e0, by simp, rfl⟩
  refine ⟨colOf_buildDF_of_empty sf he0 h0, ?_⟩
  apply eq_of_map_fst_snd
  · rw [never_map_fst, never_map_fst, hdates]
  · apply List.ext_getElem
    · rw [List.length_map, List.length_map, never_length, never_length, hdates]
    · intro t h1 h2
      have ht1 : t < (buildDF sf (pre ++ e0 :: post)).dates.length := by
        rw [List.length_map, never_length] at h1
        exact h1
      have ht2 : t < (buildDF sf (pre ++ post)).dates.length := by
        rw [List.length_map, never_length] at h2
        exact h2
      rw [← List.getD_eq_getElem _ 0 h1, ← List.getD_eq_getElem _ 0 h2,
        never_snd_getD sf _ ht1, never_snd_getD sf _ ht2]
      have hcell : ∀ e ∈ pre ++ post,
          cellAt (buildDF sf (pre ++ e0 :: post)) e.pid t
            = cellAt (buildDF sf (pre ++ post)) e.pid t := by
        intro e he
        have he' : e ∈ pre ++ e0 :: post := by
          rcases List.mem_append.mp he with h | h
          · exact List.mem_append_left _ h
          · exact List.mem_append_right _ (List.mem_cons_of_mem _ h)
        unfold cellAt
        rw [colOf_buildDF sf ⟨e, he', rfl⟩, colOf_buildDF sf ⟨e, he, rfl⟩, hds]
      have h00 : cellAt (buildDF sf (pre ++ e0 :: post)) e0.pid t = 0 :=
        cellAt_buildDF_of_empty sf he0 h0 t
      rw [List.map_append, List.map_append, List.sum_append, List.sum_append,
        List.map_cons, List.sum_cons, h00, mul_zero, zero_add]
      congr 1
      · apply congrArg
        apply List.map_congr_left
        intro e he
        rw [hcell e (List.mem_append_left _ he)]
      · apply congrArg
        apply List.map_congr_left
        intro e he
        rw [hcell e (List.mem_append_right _ he)]

/-- Witness for C10: portfolio 9 (no data) added to the walkthrough mix. -/
theorem zero_contribution_witness :
    ((((scnMix ++ MixEntry.mk 9 0 :: []).map (·.pid)).Nodup
        ∧ scnEnv.seriesOf (MixEntry.mk 9 0).pid = [])
      ∧ ZeroContributionSpec scnEnv.seriesOf scnMix [] (MixEntry.mk 9 0)) :=
  ⟨⟨by decide!, by decide!⟩,
    zero_contribution scnEnv.seriesOf scnMix [] (MixEntry.mk 9 0) (by decide!) (by decide!)⟩
